import Mathlib

/- Batteries marks the `Rat` field operations `@[irreducible]`, which
stops `decide` from evaluating concrete rational arithmetic; restore
the default reducibility so that concrete runs of the embedded engine
can be settled by `decide`. -/
set_option allowUnsafeReducibility true in
attribute [semireducible] Rat.add Rat.mul Rat.inv Rat.sub Rat.neg Rat.div

/-!
# Verification of the cosmetics-QC line simulator

Shallow embedding of the `QCLineSimulator` class from
`src/wash_process/app.js` (the multi-lane item lifecycle and
quality-classification pipeline).  JavaScript numbers are modelled as
rationals (`ℚ`); every comparison performed by the simulator is an order
comparison, so the embedding is exact on the values the program computes.
`Math.random()` and the Box-Muller gaussian draw are modelled as explicit
oracle inputs (one field per call site).  JS `Map`s are modelled as
association lists with JS `Map` semantics: `set` on an existing key
replaces the value in place, `set` on a fresh key appends, iteration is
in insertion order.  Purely presentational effects (three.js meshes, DOM,
sounds, the chart) are outside the modelled engine state, exactly as the
specification scopes them out.
-/

/-- JS `Map.prototype.get`: first entry with the key, if any. -/
def mapGet {α : Type} (m : List (String × α)) (k : String) : Option α :=
  match m with
  | [] => none
  | kv :: rest => if kv.1 = k then some kv.2 else mapGet rest k

/-- Keys of an association list, in insertion order. -/
def mapKeys {α : Type} (m : List (String × α)) : List String :=
  m.map Prod.fst

/-- Whether the map has an entry for `k`. -/
def mapHasKey {α : Type} (m : List (String × α)) (k : String) : Bool :=
  m.any (fun kv => kv.1 == k)

/-- JS `Map.prototype.set`: replace in place if the key exists
(keeping its position), append otherwise. -/
def mapSet {α : Type} (m : List (String × α)) (k : String) (v : α) :
    List (String × α) :=
  if mapHasKey m k then m.map (fun kv => if kv.1 = k then (k, v) else kv)
  else m ++ [(k, v)]

/-- JS `Map.prototype.delete`. -/
def mapDel {α : Type} (m : List (String × α)) (k : String) :
    List (String × α) :=
  m.filter (fun kv => kv.1 != k)

/-! ## Data model -/

/-- A 3-D coordinate (scene units). -/
structure Vec3 where
  x : ℚ
  y : ℚ
  z : ℚ
deriving DecidableEq, Repr

/-- Product profile (`profilesData` in `initData`).  The softness
acceptable range is the pair `softness_range_N = (min, max)`. -/
structure Profile where
  name : String
  diameter_mm : ℚ
  target_height_mm : ℚ
  height_tol_mm : ℚ
  softness_range_N : ℚ × ℚ
deriving DecidableEq, Repr

/-- Per-belt quality counters (`belt.counters`). -/
structure Counters where
  ok : ℕ
  red : ℕ
  green : ℕ
  yellow : ℕ
deriving DecidableEq, Repr

/-- A lane/belt (`beltsData` entry plus the fields added in `initData`
and the `wasRunning` flag set by `toggleEmergencyStop`; in the source
`wasRunning` starts out `undefined`, i.e. falsy, modelled as `false`). -/
structure Belt where
  id : String
  name : String
  speed_mps : ℚ
  spawn_per_min : ℚ
  profile : String
  position : Vec3
  enabled : Bool
  wasRunning : Bool
  lastSpawn : ℤ
  items : List String
  counters : Counters
deriving DecidableEq, Repr

/-- One recorded sensor reading on an item. -/
structure SensorReading where
  sensorId : String
  timestamp : ℤ
  value : ℚ
  type : String
deriving DecidableEq, Repr

/-- A fixed virtual sensor gate (`createSensors`). -/
structure Sensor where
  id : String
  type : String
  beltId : String
  position : Vec3
  active : Bool
  lastReading : ℚ
deriving DecidableEq, Repr

/-- Structured content of the generated human-readable reason string.
The source formats these values with `toFixed` into a string; the
embedding keeps the embedded measurements and thresholds themselves. -/
inductive QCReason where
  | unknownProfile : QCReason
  | softnessOutside (softness mn mx : ℚ) : QCReason
  | overHeight (height diff : ℚ) : QCReason
  | underHeight (height diff : ℚ) : QCReason
  | sizeMismatch (diameter profileDiameter : ℚ) : QCReason
  | allOk : QCReason
deriving DecidableEq, Repr

/-- Result of `evaluateQC`. -/
structure QCResult where
  status : String
  bucket : String
  reason : QCReason
deriving DecidableEq, Repr

/-- One in-flight item (`createBrushItem`). -/
structure Item where
  id : String
  beltId : String
  profile : String
  diameter_mm : ℚ
  target_height_mm : ℚ
  measured_height_mm : ℚ
  softness_N : ℚ
  status : String
  bucket : Option String
  qcReason : Option QCReason
  position : Vec3
  velocity : ℚ
  timestampIn : ℤ
  sensorReadings : List SensorReading
deriving DecidableEq, Repr

/-- A terminal bin (`binsData`). -/
structure Bin where
  id : String
  name : String
  color : String
  position : Vec3
  items : List String
  fillLevel : ℕ
deriving DecidableEq, Repr

/-- One alarm record (`createAlarm`).  The message string of the source
is `beltId ++ ": " ++ reason`; its content is kept structured. -/
structure Alarm where
  id : String
  timestamp : ℤ
  beltId : String
  itemId : String
  type : String
  msgBeltId : String
  msgReason : QCReason
  severity : String
deriving DecidableEq, Repr

/-- Global statistics (`this.statistics`). -/
structure Statistics where
  totalItems : ℕ
  okCount : ℕ
  redCount : ℕ
  greenCount : ℕ
  yellowCount : ℕ
deriving DecidableEq, Repr

/-- Fault-injection scenario flags (`this.scenarios`). -/
structure Scenarios where
  spikeHeight : Bool
  softnessDrift : Bool
  wrongProduct : Bool
deriving DecidableEq, Repr

/-- Engine configuration (`this.config`). -/
structure Config where
  height_sigma_mm : ℚ
  softness_sigma_N : ℚ
  sensorLatency : ℤ
  overHeightRate : ℚ
  underHeightRate : ℚ
  softnessNailRate : ℚ
deriving DecidableEq, Repr

/-- The random draws consumed while spawning one item: one oracle field
per `Math.random()` call site, plus the two Box-Muller gaussian values
(`gaussianRandom()` composes `sqrt`, `log` and `cos`, which do not live
in `ℚ`; the drawn gaussian value itself is the oracle). -/
structure SpawnDraws where
  idSuffix : String
  hGauss : ℚ
  hCondOver : ℚ
  hMagOver : ℚ
  hCondUnder : ℚ
  hMagUnder : ℚ
  hNorm : ℚ
  sGauss : ℚ
  sCondNail : ℚ
  sDir : ℚ
  sNorm : ℚ
  spikeRand : ℚ
  wrongIdx : ℕ
deriving DecidableEq, Repr

/-- The whole mutable engine state of `QCLineSimulator` (presentation
fields — scene, camera, renderer, chart, trend buffers — omitted as
scoped out). -/
structure SimState where
  isPaused : Bool
  simulationSpeed : ℚ
  soundEnabled : Bool
  emergencyStop : Bool
  belts : List (String × Belt)
  items : List (String × Item)
  sensors : List (String × Sensor)
  bins : List (String × Bin)
  profiles : List (String × Profile)
  alarms : List Alarm
  statistics : Statistics
  scenarios : Scenarios
  config : Config
deriving DecidableEq

/-! ## Classification engine (`evaluateQC`) -/

/-- `QCLineSimulator.evaluateQC`: the ordered decision tree.  Looks the
item's profile up in the registry, then checks softness, height and
size in that order; the first failing check returns. -/
def evaluateQC (profiles : List (String × Profile)) (item : Item) :
    QCResult :=
  match mapGet profiles item.profile with
  | none => ⟨"ERROR", "RED_BIN", QCReason.unknownProfile⟩
  | some profile =>
    let mn := profile.softness_range_N.1
    let mx := profile.softness_range_N.2
    if item.softness_N < mn ∨ item.softness_N > mx then
      ⟨"SOFT_FAIL", "YELLOW_BIN", QCReason.softnessOutside item.softness_N mn mx⟩
    else
      let heightDiff := item.measured_height_mm - profile.target_height_mm
      if |heightDiff| ≥ profile.height_tol_mm then
        if heightDiff ≥ profile.height_tol_mm then
          ⟨"OVER_HEIGHT", "GREEN_BIN", QCReason.overHeight item.measured_height_mm heightDiff⟩
        else
          ⟨"UNDER_HEIGHT", "RED_BIN", QCReason.underHeight item.measured_height_mm heightDiff⟩
      else if |item.diameter_mm - profile.diameter_mm| > 1 then
        ⟨"SIZE_DOWN", "RED_BIN", QCReason.sizeMismatch item.diameter_mm profile.diameter_mm⟩
      else
        ⟨"OK", "OK_BIN", QCReason.allOk⟩

/-! ## Startup data (`initData`, `createSensors`, the constructor) -/

/-- `profilesData` of `initData`. -/
def defaultProfilesData : List Profile :=
  [ ⟨"Brush-64", 64, 45, 1, (2, 7/2)⟩,
    ⟨"Brush-95", 95, 50, 1, (11/5, 16/5)⟩,
    ⟨"Brush-121", 121, 55, 1, (5/2, 3)⟩ ]

/-- `beltsData` of `initData`, with the fields spread in by
`this.belts.set(belt.id, {...belt, lastSpawn: 0, items: [], counters: ...})`. -/
def defaultBeltsData : List Belt :=
  [ { id := "B1", name := "Belt 1 (64mm)", speed_mps := 3/10, spawn_per_min := 18,
      profile := "Brush-64", position := ⟨-2, 0, -1⟩, enabled := false,
      wasRunning := false, lastSpawn := 0, items := [], counters := ⟨0, 0, 0, 0⟩ },
    { id := "B2", name := "Belt 2 (95mm)", speed_mps := 1/4, spawn_per_min := 14,
      profile := "Brush-95", position := ⟨-2, 0, 0⟩, enabled := false,
      wasRunning := false, lastSpawn := 0, items := [], counters := ⟨0, 0, 0, 0⟩ },
    { id := "B3", name := "Belt 3 (121mm)", speed_mps := 7/20, spawn_per_min := 22,
      profile := "Brush-121", position := ⟨-2, 0, 1⟩, enabled := false,
      wasRunning := false, lastSpawn := 0, items := [], counters := ⟨0, 0, 0, 0⟩ } ]

/-- `binsData` of `initData`. -/
def defaultBinsData : List Bin :=
  [ ⟨"OK_BIN", "OK Bin", "#ffffff", ⟨3, 0, 0⟩, [], 0⟩,
    ⟨"RED_BIN", "Under-Height/Size", "#ff4444", ⟨5/2, 0, -1⟩, [], 0⟩,
    ⟨"GREEN_BIN", "Over-Height", "#44ff44", ⟨5/2, 0, 0⟩, [], 0⟩,
    ⟨"YELLOW_BIN", "Softness Fail", "#ffff44", ⟨5/2, 0, 1⟩, [], 0⟩ ]

/-- `sensorPositions` of `createSensors`, with `active: false` and
`lastReading: 0` added by the `sensors.set` calls. -/
def defaultSensorsData : List Sensor :=
  [ ⟨"S_SOFT_1", "softness", "B1", ⟨0, 1/2, -1⟩, false, 0⟩,
    ⟨"S_HEIGHT_1", "height", "B1", ⟨1/2, 1/2, -1⟩, false, 0⟩,
    ⟨"S_SIZE_1", "size", "B1", ⟨1, 1/2, -1⟩, false, 0⟩,
    ⟨"S_SOFT_2", "softness", "B2", ⟨0, 1/2, 0⟩, false, 0⟩,
    ⟨"S_HEIGHT_2", "height", "B2", ⟨1/2, 1/2, 0⟩, false, 0⟩,
    ⟨"S_SIZE_2", "size", "B2", ⟨1, 1/2, 0⟩, false, 0⟩,
    ⟨"S_SOFT_3", "softness", "B3", ⟨0, 1/2, 1⟩, false, 0⟩,
    ⟨"S_HEIGHT_3", "height", "B3", ⟨1/2, 1/2, 1⟩, false, 0⟩,
    ⟨"S_SIZE_3", "size", "B3", ⟨1, 1/2, 1⟩, false, 0⟩ ]

/-- `QCLineSimulator.initData`: `set` every startup profile, belt and bin
into the current maps (on the first call the maps are empty; on the call
from `resetConfiguration` the existing entries are replaced in place). -/
def initData (s : SimState) : SimState :=
  { s with
    profiles := defaultProfilesData.foldl (fun m p => mapSet m p.name p) s.profiles,
    belts := defaultBeltsData.foldl (fun m b => mapSet m b.id b) s.belts,
    bins := defaultBinsData.foldl (fun m b => mapSet m b.id b) s.bins }

/-- `QCLineSimulator.createSensors` (the engine-visible part: the sensor
registry; housings and lasers are scene geometry). -/
def createSensors (s : SimState) : SimState :=
  { s with sensors := defaultSensorsData.foldl (fun m sn => mapSet m sn.id sn) s.sensors }

/-- The field initialisers of the `QCLineSimulator` constructor. -/
def constructorState : SimState :=
  { isPaused := false, simulationSpeed := 1, soundEnabled := true,
    emergencyStop := false, belts := [], items := [], sensors := [],
    bins := [], profiles := [], alarms := [],
    statistics := ⟨0, 0, 0, 0, 0⟩, scenarios := ⟨false, false, false⟩,
    config := ⟨1/5, 1/10, 50, 1/50, 3/100, 3/100⟩ }

/-- The state after the constructor ran `initData()` and `initScene()`
(which registers the sensors); the simulation loop starts from here. -/
def initState : SimState :=
  createSensors (initData constructorState)

/-! ## Simulated measurement generation -/

/-- `QCLineSimulator.simulateHeight`.  `1.6 = 8/5`; the three
`Math.random()` call sites and the gaussian are oracle fields. -/
def simulateHeight (cfg : Config) (targetHeight : ℚ) (d : SpawnDraws) : ℚ :=
  let noise := d.hGauss * cfg.height_sigma_mm
  let variation :=
    if d.hCondOver < cfg.overHeightRate then d.hMagOver * 2 + 1
    else if d.hCondUnder < cfg.underHeightRate then -(d.hMagUnder * 2 + 1)
    else (d.hNorm - 1/2) * (8/5)
  targetHeight + variation + noise

/-- `QCLineSimulator.simulateSoftness`.  `0.6 = 3/5`; the result is
clamped at zero by `Math.max(0, ...)`. -/
def simulateSoftness (cfg : Config) (softnessRange : ℚ × ℚ) (d : SpawnDraws) : ℚ :=
  let mn := softnessRange.1
  let mx := softnessRange.2
  let target := (mn + mx) / 2
  let noise := d.sGauss * cfg.softness_sigma_N
  let variation :=
    if d.sCondNail < cfg.softnessNailRate then
      if d.sDir < 1/2 then -(target - mn + 1/2) else mx - target + 1/2
    else (d.sNorm - 1/2) * (3/5)
  max 0 (target + variation + noise)

/-- The `wrongDiameters` table of `createBrushItem`. -/
def wrongDiameters : List ℚ :=
  [44, 51, 57, 70, 76, 83, 89, 102, 108, 114, 127, 133, 142, 152]

/-! ## Item lifecycle -/

/-- `QCLineSimulator.createBrushItem` (engine part; the mesh-building
second half is scene geometry).  Returns the updated state and the item
(`null` when the belt is missing or disabled).  The random index
`Math.floor(Math.random()*14)` is modelled as `wrongIdx % 14`. -/
def createBrushItem (now : ℤ) (d : SpawnDraws) (beltId : String)
    (profile : Profile) (s : SimState) : SimState × Option Item :=
  match mapGet s.belts beltId with
  | none => (s, none)
  | some belt =>
    if !belt.enabled then (s, none)
    else
      let item0 : Item :=
        { id := "item_" ++ toString now ++ "_" ++ d.idSuffix,
          beltId := beltId, profile := profile.name,
          diameter_mm := profile.diameter_mm,
          target_height_mm := profile.target_height_mm,
          measured_height_mm := simulateHeight s.config profile.target_height_mm d,
          softness_N := simulateSoftness s.config profile.softness_range_N d,
          status := "PROCESSING", bucket := none, qcReason := none,
          position := ⟨belt.position.x - 5/2, 1/5, belt.position.z⟩,
          velocity := belt.speed_mps, timestampIn := now, sensorReadings := [] }
      let item1 :=
        if s.scenarios.spikeHeight then
          { item0 with measured_height_mm := item0.measured_height_mm + (d.spikeRand - 1/2) * 4 }
        else item0
      let item2 :=
        if s.scenarios.softnessDrift then
          { item1 with softness_N := item1.softness_N + 1/2 }
        else item1
      let item3 :=
        if s.scenarios.wrongProduct then
          { item2 with diameter_mm := wrongDiameters.getD (d.wrongIdx % 14) item2.diameter_mm }
        else item2
      ({ s with items := mapSet s.items item3.id item3,
                belts := mapSet s.belts beltId { belt with items := belt.items ++ [item3.id] } },
       some item3)

/-- The body of the `belts.forEach` inside `QCLineSimulator.spawnItems`
for one belt. -/
def spawnOnBelt (now : ℤ) (draws : String → SpawnDraws) (s : SimState)
    (beltId : String) : SimState :=
  match mapGet s.belts beltId with
  | none => s
  | some belt =>
    if !belt.enabled || s.emergencyStop then s
    else
      let spawnInterval : ℚ := 60 / belt.spawn_per_min * 1000
      if ((now - belt.lastSpawn : ℤ) : ℚ) > spawnInterval then
        match mapGet s.profiles belt.profile with
        | some profile =>
          let s' := (createBrushItem now (draws beltId) beltId profile s).1
          match mapGet s'.belts beltId with
          | some belt' =>
            { s' with belts := mapSet s'.belts beltId { belt' with lastSpawn := now } }
          | none => s'
        | none => s
      else s

/-- `QCLineSimulator.spawnItems` (its `deltaTime` parameter is unused in
the source; the wall clock `Date.now()` is the `now` argument). -/
def spawnItems (now : ℤ) (draws : String → SpawnDraws) (s : SimState) : SimState :=
  (mapKeys s.belts).foldl (spawnOnBelt now draws) s

/-- The body of the `sensors.forEach` in `checkSensorInteractions` for
one sensor: within `0.1` scene units of the gate, and with no reading
for this sensor id recorded yet, push a reading (the source `switch`
has no default branch; sensor types are always one of the three). -/
def checkOneSensor (now : ℤ) (sid : String) (sensor : Sensor) (item : Item) :
    Sensor × Item :=
  if sensor.beltId ≠ item.beltId then (sensor, item)
  else
    let tolerance : ℚ := 1/10
    if |item.position.x - sensor.position.x| < tolerance then
      match item.sensorReadings.find? (fun r => r.sensorId == sid) with
      | some _ => (sensor, item)
      | none =>
        let value : ℚ :=
          if sensor.type = "softness" then item.softness_N
          else if sensor.type = "height" then item.measured_height_mm
          else if sensor.type = "size" then item.diameter_mm
          else 0
        ({ sensor with lastReading := value },
         { item with sensorReadings :=
             item.sensorReadings ++ [⟨sid, now, value, sensor.type⟩] })
    else (sensor, item)

/-- `QCLineSimulator.checkSensorInteractions`: walk the sensor registry
in insertion order, threading the item's reading list. -/
def checkSensorInteractions (now : ℤ) :
    List (String × Sensor) → Item → List (String × Sensor) × Item
  | [], item => ([], item)
  | (sid, sensor) :: rest, item =>
    let r := checkOneSensor now sid sensor item
    let rr := checkSensorInteractions now rest r.2
    ((sid, r.1) :: rr.1, rr.2)

/-- JS `string.slice(-1)`: the last character of a nonempty string. -/
def jsSliceLast (s : String) : String :=
  String.mk (s.toList.drop (s.toList.length - 1))

/-- The `requiredSensors` array built in `processItem`. -/
def requiredSensors (beltId : String) : List String :=
  let n := jsSliceLast beltId
  ["S_SOFT_" ++ n, "S_HEIGHT_" ++ n, "S_SIZE_" ++ n]

/-- `QCLineSimulator.createAlarm` (engine part: build the alarm record,
`unshift` it, and rebind `this.alarms = this.alarms.slice(0, 20)` when
over 20 entries; the buzzer and the belt light flash are presentation). -/
def createAlarm (now : ℤ) (item : Item) (qc : QCResult)
    (alarms : List Alarm) : List Alarm :=
  let alarm : Alarm :=
    { id := "alarm_" ++ toString now, timestamp := now,
      beltId := item.beltId, itemId := item.id, type := qc.status,
      msgBeltId := item.beltId, msgReason := qc.reason,
      severity :=
        if qc.bucket = "YELLOW_BIN" then "yellow"
        else if qc.bucket = "GREEN_BIN" then "green"
        else "red" }
  let l := alarm :: alarms
  if l.length > 20 then l.take 20 else l

/-- `QCLineSimulator.processItem`: once readings exist for all three
required sensor ids, classify the item exactly once, bump the belt's
and the global counters for the verdict class, and raise an alarm for
any non-`OK` verdict (`triggerDiverter` is a visual effect).  Returns
the updated engine state and the mutated item; the caller writes the
item back into the map (in the source the mutation is in place). -/
def processItem (now : ℤ) (s : SimState) (item : Item) : SimState × Item :=
  if item.status ≠ "PROCESSING" then (s, item)
  else
    let req := requiredSensors item.beltId
    let completed := item.sensorReadings.map (fun r => r.sensorId)
    if req.all (fun x => completed.contains x) then
      let qcResult := evaluateQC s.profiles item
      let item' : Item :=
        { item with
          status := qcResult.status,
          bucket := some qcResult.bucket,
          qcReason := some qcResult.reason }
      match mapGet s.belts item.beltId with
      | none => (s, item')
        -- the source would throw a TypeError on `belt.counters` here;
        -- every spawned item's beltId names a live belt
      | some belt =>
        let bumped : Counters × Statistics :=
          if qcResult.status = "OK" then
            ({ belt.counters with ok := belt.counters.ok + 1 },
             { s.statistics with okCount := s.statistics.okCount + 1 })
          else if qcResult.bucket = "RED_BIN" then
            ({ belt.counters with red := belt.counters.red + 1 },
             { s.statistics with redCount := s.statistics.redCount + 1 })
          else if qcResult.bucket = "GREEN_BIN" then
            ({ belt.counters with green := belt.counters.green + 1 },
             { s.statistics with greenCount := s.statistics.greenCount + 1 })
          else if qcResult.bucket = "YELLOW_BIN" then
            ({ belt.counters with yellow := belt.counters.yellow + 1 },
             { s.statistics with yellowCount := s.statistics.yellowCount + 1 })
          else (belt.counters, s.statistics)
        let stats' := { bumped.2 with totalItems := bumped.2.totalItems + 1 }
        let alarms' :=
          if qcResult.status ≠ "OK" then createAlarm now item' qcResult s.alarms
          else s.alarms
        ({ s with belts := mapSet s.belts item.beltId { belt with counters := bumped.1 },
                  statistics := stats', alarms := alarms' },
         item')
    else (s, item)

/-- `QCLineSimulator.moveItemToBin`.  The source starts a one-second
`requestAnimationFrame` tween; the bin push, the `fillLevel` increment
and the `COMPLETED` transition all happen in that callback after the
tick has returned, so within the synchronous engine step modelled here
the call changes nothing. -/
def moveItemToBin (s : SimState) (_item : Item) : SimState := s

/-- `QCLineSimulator.removeItem`: splice the id out of the owning
belt's item list and delete the map entry. -/
def removeItem (s : SimState) (itemId : String) : SimState :=
  match mapGet s.items itemId with
  | none => s
  | some item =>
    let s1 :=
      match mapGet s.belts item.beltId with
      | some belt =>
        { s with belts :=
            mapSet s.belts item.beltId { belt with items := belt.items.erase itemId } }
      | none => s
    { s1 with items := mapDel s1.items itemId }

/-- The body of the `items.forEach` inside `QCLineSimulator.updateItems`
for one item: advance the position, run the sensor gates, run QC, then
the disposition and purge checks, in the source's order. -/
def updateOneItem (now : ℤ) (dt : ℚ) (s : SimState) (itemId : String) : SimState :=
  match mapGet s.items itemId with
  | none => s
  | some item0 =>
    if item0.status = "COMPLETED" then s
    else
      let item1 := { item0 with position :=
        { item0.position with x := item0.position.x + item0.velocity * dt * s.simulationSpeed } }
      let si := checkSensorInteractions now s.sensors item1
      let s1 := { s with sensors := si.1, items := mapSet s.items itemId si.2 }
      let pr := processItem now s1 si.2
      let s2 := { pr.1 with items := mapSet pr.1.items itemId pr.2 }
      let s3 :=
        if pr.2.status ≠ "PROCESSING" ∧ pr.2.position.x > 2 then moveItemToBin s2 pr.2
        else s2
      if pr.2.position.x > 4 then removeItem s3 itemId else s3

/-- `QCLineSimulator.updateItems`: run the per-item step for every item
key (the source iterates the live map; items are only ever deleted by
their own step, never added, so iterating a snapshot of the keys is
the same traversal). -/
def updateItems (now : ℤ) (dt : ℚ) (s : SimState) : SimState :=
  (s.items.map Prod.fst).foldl (updateOneItem now dt) s

/-! ## Control operations -/

/-- `QCLineSimulator.toggleBelt` (the guard also requires the button and
status-light DOM nodes, which exist for every belt). -/
def toggleBelt (beltId : String) (s : SimState) : SimState :=
  match mapGet s.belts beltId with
  | none => s
  | some belt =>
    { s with belts := mapSet s.belts beltId { belt with enabled := !belt.enabled } }

/-- `QCLineSimulator.setBeltSpeed`: set the belt speed and retroactively
update the velocity of every in-flight item on that belt. -/
def setBeltSpeed (beltId : String) (speed : ℚ) (s : SimState) : SimState :=
  match mapGet s.belts beltId with
  | none => s
  | some belt =>
    { s with belts := mapSet s.belts beltId { belt with speed_mps := speed },
             items := s.items.map (fun kv =>
               if kv.2.beltId = beltId then (kv.1, { kv.2 with velocity := speed }) else kv) }

/-- `QCLineSimulator.setBeltProfile`. -/
def setBeltProfile (beltId : String) (profileName : String) (s : SimState) : SimState :=
  match mapGet s.belts beltId with
  | none => s
  | some belt =>
    { s with belts := mapSet s.belts beltId { belt with profile := profileName } }

/-- The engage branch of `toggleEmergencyStop` for one belt: if it is
enabled, record `wasRunning = true` and toggle it off. -/
def estopEngageStep (s : SimState) (beltId : String) : SimState :=
  match mapGet s.belts beltId with
  | none => s
  | some belt =>
    if belt.enabled then
      toggleBelt beltId { s with belts := mapSet s.belts beltId { belt with wasRunning := true } }
    else s

/-- The release branch of `toggleEmergencyStop` for one belt: if it was
running, toggle it back on and clear `wasRunning`. -/
def estopReleaseStep (s : SimState) (beltId : String) : SimState :=
  match mapGet s.belts beltId with
  | none => s
  | some belt =>
    if belt.wasRunning then
      let s' := toggleBelt beltId s
      match mapGet s'.belts beltId with
      | some belt' =>
        { s' with belts := mapSet s'.belts beltId { belt' with wasRunning := false } }
      | none => s'
    else s

/-- `QCLineSimulator.toggleEmergencyStop`: flip the flag, then stop all
running belts (engage) or restart the previously running ones (release). -/
def toggleEmergencyStop (s : SimState) : SimState :=
  let s1 : SimState := { s with emergencyStop := !s.emergencyStop }
  if s1.emergencyStop then (mapKeys s1.belts).foldl estopEngageStep s1
  else (mapKeys s1.belts).foldl estopReleaseStep s1

/-- `QCLineSimulator.togglePause`. -/
def togglePause (s : SimState) : SimState :=
  { s with isPaused := !s.isPaused }

/-- The three fault-injection scenario buttons. -/
inductive ScenarioName where
  | spikeHeight : ScenarioName
  | softnessDrift : ScenarioName
  | wrongProduct : ScenarioName
deriving DecidableEq, Repr

/-- `QCLineSimulator.toggleScenario`. -/
def toggleScenario (n : ScenarioName) (s : SimState) : SimState :=
  match n with
  | .spikeHeight =>
    { s with scenarios := { s.scenarios with spikeHeight := !s.scenarios.spikeHeight } }
  | .softnessDrift =>
    { s with scenarios := { s.scenarios with softnessDrift := !s.scenarios.softnessDrift } }
  | .wrongProduct =>
    { s with scenarios := { s.scenarios with wrongProduct := !s.scenarios.wrongProduct } }

/-- `QCLineSimulator.resetScenarios`. -/
def resetScenarios (s : SimState) : SimState :=
  { s with scenarios := ⟨false, false, false⟩ }

/-- `QCLineSimulator.clearAlarms` (the display refresh is presentation). -/
def clearAlarms (s : SimState) : SimState :=
  { s with alarms := [] }

/-- The five `parseFloat`ed form values read by `saveProfileChanges`.
A malformed form field parses to `NaN` in the source; `NaN` has no
counterpart in `ℚ`, so the model ranges over every finite parse. -/
structure ProfileEdit where
  diameter_mm : ℚ
  target_height_mm : ℚ
  height_tol_mm : ℚ
  softnessMin : ℚ
  softnessMax : ℚ
deriving DecidableEq, Repr

/-- `QCLineSimulator.saveProfileChanges`: overwrite every field of the
named profile with the parsed form values and `set` it back.  The
source performs no validation of any kind before committing. -/
def saveProfileChanges (name : String) (e : ProfileEdit) (s : SimState) : SimState :=
  match mapGet s.profiles name with
  | none => s
  | some profile =>
    let profile' : Profile :=
      { profile with
        diameter_mm := e.diameter_mm,
        target_height_mm := e.target_height_mm,
        height_tol_mm := e.height_tol_mm,
        softness_range_N := (e.softnessMin, e.softnessMax) }
    { s with profiles := mapSet s.profiles name profile' }

/-- The parsed form values read by `saveSensorSettings`. -/
structure SensorSettingsEdit where
  heightNoise : ℚ
  softnessNoise : ℚ
  sensorLatency : ℤ
deriving DecidableEq, Repr

/-- `QCLineSimulator.saveSensorSettings`. -/
def saveSensorSettings (e : SensorSettingsEdit) (s : SimState) : SimState :=
  { s with config :=
      { s.config with
        height_sigma_mm := e.heightNoise,
        softness_sigma_N := e.softnessNoise,
        sensorLatency := e.sensorLatency } }

/-- `QCLineSimulator.resetConfiguration`: reset the noise settings to
their defaults and re-run `initData()` (which re-creates the profiles,
belts and bins in place; items, alarms and the global statistics are
not touched). -/
def resetConfiguration (s : SimState) : SimState :=
  initData
    { s with config :=
        { s.config with
          height_sigma_mm := 1/5,
          softness_sigma_N := 1/10,
          sensorLatency := 50 } }

/-- One pass of the `animate` body in `QCLineSimulator.start`: when not
paused, spawn then update (trend/UI refresh and FPS bookkeeping are
presentation). -/
def tick (dt : ℚ) (now : ℤ) (draws : String → SpawnDraws) (s : SimState) : SimState :=
  if s.isPaused then s else updateItems now dt (spawnItems now draws s)

/-! ## Operations and reachable states -/

/-- Every externally triggerable operation of the simulator: one frame
of the loop, and each UI control action. -/
inductive Op where
  | tick (dt : ℚ) (now : ℤ) (draws : String → SpawnDraws) : Op
  | toggleBelt (beltId : String) : Op
  | setBeltSpeed (beltId : String) (speed : ℚ) : Op
  | setBeltProfile (beltId : String) (profileName : String) : Op
  | toggleEmergencyStop : Op
  | togglePause : Op
  | toggleScenario (n : ScenarioName) : Op
  | resetScenarios : Op
  | clearAlarms : Op
  | saveProfileChanges (name : String) (edit : ProfileEdit) : Op
  | saveSensorSettings (edit : SensorSettingsEdit) : Op
  | resetConfiguration : Op

/-- Interpretation of an operation as a state transformer. -/
def applyOp : Op → SimState → SimState
  | .tick dt now draws => tick dt now draws
  | .toggleBelt beltId => toggleBelt beltId
  | .setBeltSpeed beltId speed => setBeltSpeed beltId speed
  | .setBeltProfile beltId name => setBeltProfile beltId name
  | .toggleEmergencyStop => toggleEmergencyStop
  | .togglePause => togglePause
  | .toggleScenario n => toggleScenario n
  | .resetScenarios => resetScenarios
  | .clearAlarms => clearAlarms
  | .saveProfileChanges name e => saveProfileChanges name e
  | .saveSensorSettings e => saveSensorSettings e
  | .resetConfiguration => resetConfiguration

/-- States the simulator can be in: the startup state followed by any
sequence of operations. -/
inductive Reachable : SimState → Prop where
  | init : Reachable initState
  | step {s : SimState} (op : Op) : Reachable s → Reachable (applyOp op s)

/-- Run a whole sequence of operations. -/
def runOps (ops : List Op) (s : SimState) : SimState :=
  ops.foldl (fun s op => applyOp op s) s

theorem reachable_runOps (ops : List Op) {s : SimState} (h : Reachable s) :
    Reachable (runOps ops s) := by
  induction ops generalizing s with
  | nil => exact h
  | cons op rest ih => exact ih (Reachable.step op h)

/-! ## Association-list lemmas -/

section MapLemmas

variable {α : Type}

/-- The entry-replacing map underlying `mapSet` on an existing key. -/
def mapReplace (m : List (String × α)) (k : String) (v : α) : List (String × α) :=
  match m with
  | [] => []
  | kv :: rest => (if kv.1 = k then (k, v) else kv) :: mapReplace rest k v

theorem mapReplace_eq_map {m : List (String × α)} {k : String} {v : α} :
    mapReplace m k v = m.map (fun kv => if kv.1 = k then (k, v) else kv) := by
  induction m with
  | nil => rfl
  | cons kv rest ih => simp [mapReplace, ih]

theorem mapSet_eq_replace {m : List (String × α)} {k : String} {v : α}
    (h : mapHasKey m k = true) : mapSet m k v = mapReplace m k v := by
  simp [mapSet, h, mapReplace_eq_map]

theorem mapSet_eq_append {m : List (String × α)} {k : String} {v : α}
    (h : mapHasKey m k = false) : mapSet m k v = m ++ [(k, v)] := by
  simp [mapSet, h]

theorem mapGet_mem {m : List (String × α)} {k : String} {v : α}
    (h : mapGet m k = some v) : (k, v) ∈ m := by
  induction m with
  | nil => simp [mapGet] at h
  | cons kv rest ih =>
    by_cases hk : kv.1 = k
    · simp only [mapGet, if_pos hk, Option.some.injEq] at h
      have : kv = (k, v) := Prod.ext hk h
      rw [← this]
      exact List.mem_cons_self kv rest
    · simp only [mapGet, if_neg hk] at h
      exact List.mem_cons_of_mem _ (ih h)

theorem mapHasKey_of_get {m : List (String × α)} {k : String} {v : α}
    (h : mapGet m k = some v) : mapHasKey m k = true := by
  induction m with
  | nil => simp [mapGet] at h
  | cons kv rest ih =>
    by_cases hk : kv.1 = k
    · simp only [mapHasKey, List.any_cons, hk, beq_self_eq_true, Bool.true_or]
    · simp only [mapGet, if_neg hk] at h
      have := ih h
      unfold mapHasKey at this
      simp only [mapHasKey, List.any_cons, this, Bool.or_true]

theorem mem_mapSet {m : List (String × α)} {k : String} {v : α} {kv : String × α}
    (h : kv ∈ mapSet m k v) : kv ∈ m ∨ kv = (k, v) := by
  unfold mapSet at h
  split at h
  · rcases List.mem_map.1 h with ⟨kv0, hm, he⟩
    by_cases h0 : kv0.1 = k
    · rw [if_pos h0] at he
      right; exact he.symm
    · rw [if_neg h0] at he
      left; exact he ▸ hm
  · rcases List.mem_append.1 h with h | h
    · left; exact h
    · right; simpa using h

theorem mapGet_replace_self {m : List (String × α)} {k : String} {v w : α}
    (h : mapGet m k = some v) : mapGet (mapReplace m k w) k = some w := by
  induction m with
  | nil => simp [mapGet] at h
  | cons kv rest ih =>
    by_cases hk : kv.1 = k
    · simp [mapReplace, mapGet, hk]
    · simp only [mapGet, if_neg hk] at h
      simp only [mapReplace, if_neg hk, mapGet, ih h]

theorem mapGet_mapSet_self {m : List (String × α)} {k : String} {v w : α}
    (h : mapGet m k = some v) : mapGet (mapSet m k w) k = some w := by
  rw [mapSet_eq_replace (mapHasKey_of_get h)]
  exact mapGet_replace_self h

theorem mapGet_replace_ne {m : List (String × α)} {k k' : String}
    (hne : k' ≠ k) (v : α) : mapGet (mapReplace m k v) k' = mapGet m k' := by
  induction m with
  | nil => rfl
  | cons kv rest ih =>
    by_cases hk : kv.1 = k
    · have hkk' : ¬(k : String) = k' := fun h => hne h.symm
      have hkv : ¬kv.1 = k' := by rw [hk]; exact hkk'
      simp only [mapReplace, if_pos hk, mapGet, hkk', if_false, if_neg hkv, ih]
    · by_cases hk' : kv.1 = k'
      · simp only [mapReplace, if_neg hk, mapGet, if_pos hk']
      · simp only [mapReplace, if_neg hk, mapGet, if_neg hk', ih]

theorem mapGet_append_single_ne {m : List (String × α)} {k k' : String}
    (hne : k' ≠ k) (v : α) : mapGet (m ++ [(k, v)]) k' = mapGet m k' := by
  induction m with
  | nil =>
    have : ¬(k : String) = k' := fun h => hne h.symm
    simp [mapGet, this]
  | cons kv rest ih =>
    by_cases hk : kv.1 = k'
    · simp [mapGet, hk]
    · simp [mapGet, hk, ih]

theorem mapGet_mapSet_ne {m : List (String × α)} {k k' : String} (hne : k' ≠ k)
    (v : α) : mapGet (mapSet m k v) k' = mapGet m k' := by
  by_cases hkey : mapHasKey m k = true
  · rw [mapSet_eq_replace hkey]
    exact mapGet_replace_ne hne v
  · rw [mapSet_eq_append (Bool.not_eq_true _ ▸ hkey : mapHasKey m k = false)]
    exact mapGet_append_single_ne hne v

theorem mapKeys_replace {m : List (String × α)} {k : String} {v : α} :
    mapKeys (mapReplace m k v) = mapKeys m := by
  induction m with
  | nil => rfl
  | cons kv rest ih =>
    by_cases hk : kv.1 = k
    · simp only [mapReplace, if_pos hk, mapKeys, List.map_cons] at *
      rw [ih, hk]
    · simp only [mapReplace, if_neg hk, mapKeys, List.map_cons] at *
      rw [ih]

theorem mapKeys_mapSet_of_get {m : List (String × α)} {k : String} {v w : α}
    (h : mapGet m k = some v) : mapKeys (mapSet m k w) = mapKeys m := by
  rw [mapSet_eq_replace (mapHasKey_of_get h)]
  exact mapKeys_replace

theorem mapKeys_mapSet_nodup {m : List (String × α)} {k : String} {v : α}
    (h : (mapKeys m).Nodup) : (mapKeys (mapSet m k v)).Nodup := by
  by_cases hkey : mapHasKey m k = true
  · rw [mapSet_eq_replace hkey, mapKeys_replace]
    exact h
  · rw [mapSet_eq_append (Bool.not_eq_true _ ▸ hkey : mapHasKey m k = false)]
    unfold mapKeys at h ⊢
    rw [List.map_append]
    simp only [List.map_cons, List.map_nil]
    rw [List.nodup_append]
    refine ⟨h, List.nodup_singleton _, ?_⟩
    intro a ha hb
    have hak : a = k := List.mem_singleton.1 hb
    rw [hak] at ha
    rcases List.mem_map.1 ha with ⟨kv, hkv, hk⟩
    have hkt : mapHasKey m k = true := by
      unfold mapHasKey
      exact List.any_eq_true.2 ⟨kv, hkv, by simp [hk]⟩
    exact hkey hkt

end MapLemmas

/-! ## Concrete fixtures used by witnesses and counterexamples -/

/-- The `Brush-64` profile exactly as registered by `initData`. -/
def brush64 : Profile := ⟨"Brush-64", 64, 45, 1, (2, 7/2)⟩

/-- An item on belt `B1` against profile `Brush-64` with the given
measured height, softness and diameter (the fields classification
reads), as `createBrushItem` would shape it. -/
def brushItem (height softness diameter : ℚ) : Item :=
  { id := "i", beltId := "B1", profile := "Brush-64", diameter_mm := diameter,
    target_height_mm := 45, measured_height_mm := height, softness_N := softness,
    status := "PROCESSING", bucket := none, qcReason := none,
    position := ⟨0, 1/5, -1⟩, velocity := 3/10, timestampIn := 0,
    sensorReadings := [] }

/-- Oracle draws that make every probabilistic branch take its nominal
path (no defect injection, zero gaussian noise, centred jitter). -/
def nominalDraws : SpawnDraws :=
  { idSuffix := "x", hGauss := 0, hCondOver := 1, hMagOver := 0, hCondUnder := 1,
    hMagUnder := 0, hNorm := 1/2, sGauss := 0, sCondNail := 1, sDir := 0,
    sNorm := 1/2, spikeRand := 1/2, wrongIdx := 0 }

/-- The startup state with belt `B1` switched on. -/
def demoEnabledState : SimState := toggleBelt "B1" initState

/-- The item `createBrushItem 10000 nominalDraws "B1" brush64` produces
from `demoEnabledState`. -/
def demoItem : Item :=
  { id := "item_10000_x", beltId := "B1", profile := "Brush-64",
    diameter_mm := 64, target_height_mm := 45, measured_height_mm := 45,
    softness_N := 11/4, status := "PROCESSING", bucket := none, qcReason := none,
    position := ⟨-9/2, 1/5, -1⟩, velocity := 3/10, timestampIn := 10000,
    sensorReadings := [] }

/-! ## C1: ordered evaluation of the classification checks -/

/-- **C1.** For every item and registered profile, `evaluateQC` applies
its checks in the fixed order softness, height, size, and the first
failing check decides: out-of-range softness gives `SOFT_FAIL` into the
yellow bin regardless of height and diameter; with softness in range, a
height deviation at or above tolerance gives `OVER_HEIGHT` (green bin)
when over and `UNDER_HEIGHT` (red bin) when under; with softness and
height passing, a diameter deviation above 1 mm fails the size check
(red bin); otherwise the verdict is `OK` into the accept bin. -/
theorem evaluateQC_priority_order
    (profiles : List (String × Profile)) (item : Item) (profile : Profile)
    (h : mapGet profiles item.profile = some profile) :
    ((item.softness_N < profile.softness_range_N.1 ∨
        item.softness_N > profile.softness_range_N.2) →
      (evaluateQC profiles item).status = "SOFT_FAIL" ∧
      (evaluateQC profiles item).bucket = "YELLOW_BIN") ∧
    (¬(item.softness_N < profile.softness_range_N.1 ∨
        item.softness_N > profile.softness_range_N.2) →
      item.measured_height_mm - profile.target_height_mm ≥ profile.height_tol_mm →
      (evaluateQC profiles item).status = "OVER_HEIGHT" ∧
      (evaluateQC profiles item).bucket = "GREEN_BIN") ∧
    (¬(item.softness_N < profile.softness_range_N.1 ∨
        item.softness_N > profile.softness_range_N.2) →
      item.measured_height_mm - profile.target_height_mm ≤ -profile.height_tol_mm →
      item.measured_height_mm - profile.target_height_mm < profile.height_tol_mm →
      (evaluateQC profiles item).status = "UNDER_HEIGHT" ∧
      (evaluateQC profiles item).bucket = "RED_BIN") ∧
    (¬(item.softness_N < profile.softness_range_N.1 ∨
        item.softness_N > profile.softness_range_N.2) →
      |item.measured_height_mm - profile.target_height_mm| < profile.height_tol_mm →
      |item.diameter_mm - profile.diameter_mm| > 1 →
      (evaluateQC profiles item).status = "SIZE_DOWN" ∧
      (evaluateQC profiles item).bucket = "RED_BIN") ∧
    (¬(item.softness_N < profile.softness_range_N.1 ∨
        item.softness_N > profile.softness_range_N.2) →
      |item.measured_height_mm - profile.target_height_mm| < profile.height_tol_mm →
      |item.diameter_mm - profile.diameter_mm| ≤ 1 →
      (evaluateQC profiles item).status = "OK" ∧
      (evaluateQC profiles item).bucket = "OK_BIN") := by
  refine ⟨?_, ?_, ?_, ?_, ?_⟩
  · intro h1
    simp [evaluateQC, h, h1]
  · intro h1 h2
    have habs : |item.measured_height_mm - profile.target_height_mm| ≥
        profile.height_tol_mm :=
      le_trans h2 (le_abs_self _)
    simp [evaluateQC, h, h1, h2, habs]
  · intro h1 h2 h3
    have habs : |item.measured_height_mm - profile.target_height_mm| ≥
        profile.height_tol_mm := by
      have : profile.height_tol_mm ≤ -(item.measured_height_mm - profile.target_height_mm) := by
        linarith
      exact le_trans this (neg_le_abs _)
    simp [evaluateQC, h, h1, habs, not_le.2 h3]
  · intro h1 h2 h3
    simp [evaluateQC, h, h1, not_le.2 h2, h3]
  · intro h1 h2 h3
    simp [evaluateQC, h, h1, not_le.2 h2, not_lt.2 h3]

/-- Witness for C1: a concrete softness-fail item (softness `3/2` below
the `Brush-64` minimum `2`) with simultaneously wrong height and
diameter is still `SOFT_FAIL` into the yellow bin. -/
theorem evaluateQC_priority_order_witness :
    (evaluateQC initState.profiles (brushItem 50 (3/2) 70)).status = "SOFT_FAIL" ∧
    (evaluateQC initState.profiles (brushItem 50 (3/2) 70)).bucket = "YELLOW_BIN" :=
  (evaluateQC_priority_order initState.profiles (brushItem 50 (3/2) 70) brush64
    (by decide)).1 (by norm_num [brushItem, brush64])

/-! ## C2: the four Brush-64 classification scenarios -/

/-- **C2 (amended).** For `Brush-64` (diameter 64, target height 45,
tolerance 1.0, softness range [2.0, 3.5]): nominal measurements give
`OK` into the accept bin; softness 1.5 gives `SOFT_FAIL` regardless of
the measured height; height 47.5 with valid softness gives
`OVER_HEIGHT`; diameter 70 with valid softness and height fails the
size check with the source's verdict name `SIZE_DOWN` (the claim calls
this verdict `SIZE_MISMATCH`, a name that appears nowhere in the code). -/
theorem evaluateQC_brush64_scenarios :
    ((evaluateQC initState.profiles (brushItem 45 (5/2) 64)).status = "OK" ∧
     (evaluateQC initState.profiles (brushItem 45 (5/2) 64)).bucket = "OK_BIN") ∧
    (∀ height : ℚ,
      (evaluateQC initState.profiles (brushItem height (3/2) 64)).status = "SOFT_FAIL") ∧
    ((evaluateQC initState.profiles (brushItem (95/2) (5/2) 64)).status = "OVER_HEIGHT") ∧
    ((evaluateQC initState.profiles (brushItem 45 (5/2) 70)).status = "SIZE_DOWN" ∧
     (evaluateQC initState.profiles (brushItem 45 (5/2) 70)).bucket = "RED_BIN") := by
  refine ⟨⟨by decide, by decide⟩, ?_, by decide, by decide, by decide⟩
  intro height
  have hp : mapGet initState.profiles "Brush-64" = some brush64 := by decide
  have hs : (brushItem height (3/2) 64).profile = "Brush-64" := rfl
  simp only [evaluateQC, hs, hp]
  norm_num [brushItem, brush64]

/-- Counterexample for C2 as stated: on the diameter-70 scenario the
verdict is not `SIZE_MISMATCH` (the code's verdict string for the size
check is `SIZE_DOWN`). -/
theorem evaluateQC_brush64_size_mismatch_cex :
    (evaluateQC initState.profiles (brushItem 45 (5/2) 70)).status ≠ "SIZE_MISMATCH" := by
  decide

/-! ## C3: profile edits are committed without validation -/

/-- Counterexample for C3: editing `Brush-64` to the softness range
`[5, 2]` (min strictly greater than max) is committed — the previous
profile is not retained and no failure occurs, although the claim says
such an edit must be rejected with `InvalidProfileSpec`. -/
theorem saveProfileChanges_no_validation_cex :
    (5 : ℚ) > 2 ∧
    mapGet (saveProfileChanges "Brush-64" ⟨64, 45, 1, 5, 2⟩ initState).profiles
        "Brush-64" = some ⟨"Brush-64", 64, 45, 1, (5, 2)⟩ ∧
    mapGet (saveProfileChanges "Brush-64" ⟨64, 45, 1, 5, 2⟩ initState).profiles
        "Brush-64" ≠ mapGet initState.profiles "Brush-64" := by
  refine ⟨by norm_num, by decide, by decide⟩

/-- **C3 (amended).** `saveProfileChanges` performs no validation at
all: whenever the named profile exists, every parsed field value is
committed unconditionally (in particular a softness range with
min > max), replacing the stored profile; there is no
`InvalidProfileSpec` failure path. -/
theorem saveProfileChanges_commits_unconditionally
    (s : SimState) (name : String) (e : ProfileEdit) (p : Profile)
    (h : mapGet s.profiles name = some p) :
    mapGet (saveProfileChanges name e s).profiles name =
      some { p with
             diameter_mm := e.diameter_mm,
             target_height_mm := e.target_height_mm,
             height_tol_mm := e.height_tol_mm,
             softness_range_N := (e.softnessMin, e.softnessMax) } := by
  unfold saveProfileChanges
  rw [h]
  exact mapGet_mapSet_self h

/-- Witness for C3 (amended): the malformed `[5, 2]` edit really lands
in the registry. -/
theorem saveProfileChanges_commits_unconditionally_witness :
    mapGet (saveProfileChanges "Brush-64" ⟨64, 45, 1, 5, 2⟩ initState).profiles
        "Brush-64" =
      some { brush64 with
             diameter_mm := 64,
             target_height_mm := 45,
             height_tol_mm := 1,
             softness_range_N := (5, 2) } :=
  saveProfileChanges_commits_unconditionally initState "Brush-64"
    ⟨64, 45, 1, 5, 2⟩ brush64 (by decide)

/-! ## C10: simulated softness is clamped at zero -/

/-- `simulateSoftness` is clamped at zero for every oracle outcome. -/
theorem simulateSoftness_nonneg (cfg : Config) (range : ℚ × ℚ) (d : SpawnDraws) :
    0 ≤ simulateSoftness cfg range d :=
  le_max_left 0 _

/-- **C10.** For every profile and every outcome of the random draws
the generated softness is non-negative (`Math.max(0, ...)`), and every
item `createBrushItem` actually spawns — including under the
`softnessDrift` scenario, which only adds `0.5` — carries a
non-negative measured softness into classification. -/
theorem spawned_softness_nonneg :
    (∀ (cfg : Config) (range : ℚ × ℚ) (d : SpawnDraws),
      0 ≤ simulateSoftness cfg range d) ∧
    (∀ (now : ℤ) (d : SpawnDraws) (beltId : String) (profile : Profile)
      (s : SimState) (item : Item),
      (createBrushItem now d beltId profile s).2 = some item →
      0 ≤ item.softness_N) := by
  refine ⟨simulateSoftness_nonneg, ?_⟩
  intro now d beltId profile s item h
  unfold createBrushItem at h
  cases hb : mapGet s.belts beltId with
  | none => rw [hb] at h; simp at h
  | some belt =>
    rw [hb] at h
    by_cases he : belt.enabled
    · simp only [he, Bool.not_true, Bool.false_eq_true, if_false, Option.some.injEq] at h
      subst h
      have h0 : 0 ≤ simulateSoftness s.config profile.softness_range_N d :=
        simulateSoftness_nonneg _ _ _
      by_cases hw : s.scenarios.wrongProduct <;>
        by_cases hd : s.scenarios.softnessDrift <;>
        by_cases hs : s.scenarios.spikeHeight <;>
        simp [hw, hd, hs] <;> linarith
    · simp only [he, Bool.not_false, if_true] at h
      simp at h

/-- Witness for C10: the item spawned on `B1` from the startup state
(belt enabled) with nominal draws has softness `11/4 ≥ 0`. -/
theorem spawned_softness_nonneg_witness : 0 ≤ demoItem.softness_N :=
  spawned_softness_nonneg.2 10000 nominalDraws "B1" brush64 demoEnabledState
    demoItem (by decide)


/-! ## Generic fold-invariant helper -/

/-- A property preserved by every step of a fold is preserved by the fold. -/
theorem foldlPreserve {σ κ : Type} (P : σ → Prop) (f : σ → κ → σ)
    (hf : ∀ s k, P s → P (f s k)) :
    ∀ (l : List κ) (s : σ), P s → P (l.foldl f s) := by
  intro l
  induction l with
  | nil => intro s h; exact h
  | cons k rest ih => intro s h; exact ih (f s k) (hf s k h)

/-! ## C6: the bounded alarm log -/

/-- The `unshift`-then-`slice(0, 20)` pattern keeps at most 20 entries. -/
theorem cons_cap20_length_le (a : Alarm) (l : List Alarm) :
    (if (a :: l).length > 20 then (a :: l).take 20 else a :: l).length ≤ 20 := by
  by_cases h : (a :: l).length > 20
  · rw [if_pos h, List.length_take]
    exact min_le_left _ _
  · rw [if_neg h]
    exact not_lt.mp h

theorem createAlarm_length_le (now : ℤ) (item : Item) (qc : QCResult)
    (l : List Alarm) : (createAlarm now item qc l).length ≤ 20 := by
  unfold createAlarm
  dsimp only
  exact cons_cap20_length_le _ _

theorem processItem_alarms_le {s : SimState} (now : ℤ) (item : Item)
    (h : s.alarms.length ≤ 20) :
    (processItem now s item).1.alarms.length ≤ 20 := by
  unfold processItem
  dsimp only
  split
  · exact h
  · split
    · split
      · exact h
      · dsimp only
        split
        · exact createAlarm_length_le _ _ _ _
        · exact h
    · exact h

theorem removeItem_alarms (s : SimState) (itemId : String) :
    (removeItem s itemId).alarms = s.alarms := by
  unfold removeItem
  split
  · rfl
  · dsimp only
    split <;> rfl

theorem updateOneItem_alarms_le {s : SimState} (now : ℤ) (dt : ℚ) (itemId : String)
    (h : s.alarms.length ≤ 20) :
    (updateOneItem now dt s itemId).alarms.length ≤ 20 := by
  unfold updateOneItem
  split
  · exact h
  · split
    · exact h
    · dsimp only
      split
      · rw [removeItem_alarms]
        split
        · unfold moveItemToBin
          exact processItem_alarms_le now _ h
        · exact processItem_alarms_le now _ h
      · split
        · unfold moveItemToBin
          exact processItem_alarms_le now _ h
        · exact processItem_alarms_le now _ h

theorem createBrushItem_alarms (now : ℤ) (d : SpawnDraws) (beltId : String)
    (profile : Profile) (s : SimState) :
    (createBrushItem now d beltId profile s).1.alarms = s.alarms := by
  unfold createBrushItem
  split
  · rfl
  · dsimp only
    split
    · rfl
    · rfl

theorem spawnOnBelt_alarms (now : ℤ) (draws : String → SpawnDraws) (s : SimState)
    (k : String) : (spawnOnBelt now draws s k).alarms = s.alarms := by
  unfold spawnOnBelt
  cases hb : mapGet s.belts k with
  | none => rfl
  | some belt =>
    dsimp only
    by_cases hc : (!belt.enabled || s.emergencyStop) = true
    · rw [if_pos hc]
    · rw [if_neg hc]
      by_cases ht : ((now - belt.lastSpawn : ℤ) : ℚ) > 60 / belt.spawn_per_min * 1000
      · rw [if_pos ht]
        cases hp : mapGet s.profiles belt.profile with
        | none => rfl
        | some profile =>
          dsimp only
          cases hb2 : mapGet (createBrushItem now (draws k) k profile s).1.belts k with
          | none => exact createBrushItem_alarms now (draws k) k profile s
          | some belt2 =>
            dsimp only
            exact createBrushItem_alarms now (draws k) k profile s
      · rw [if_neg ht]

theorem spawnItems_alarms (now : ℤ) (draws : String → SpawnDraws) (s : SimState) :
    (spawnItems now draws s).alarms = s.alarms := by
  unfold spawnItems
  exact foldlPreserve (fun s' => s'.alarms = s.alarms)
    (spawnOnBelt now draws)
    (fun s' k hp => (spawnOnBelt_alarms now draws s' k).trans hp) _ s rfl

theorem toggleBelt_alarms (beltId : String) (s : SimState) :
    (toggleBelt beltId s).alarms = s.alarms := by
  unfold toggleBelt
  split <;> rfl

theorem setBeltSpeed_alarms (beltId : String) (speed : ℚ) (s : SimState) :
    (setBeltSpeed beltId speed s).alarms = s.alarms := by
  unfold setBeltSpeed
  split <;> rfl

theorem setBeltProfile_alarms (beltId : String) (name : String) (s : SimState) :
    (setBeltProfile beltId name s).alarms = s.alarms := by
  unfold setBeltProfile
  split <;> rfl

theorem estopEngageStep_alarms (s : SimState) (k : String) :
    (estopEngageStep s k).alarms = s.alarms := by
  unfold estopEngageStep
  split
  · rfl
  · split
    · rw [toggleBelt_alarms]
    · rfl

theorem estopReleaseStep_alarms (s : SimState) (k : String) :
    (estopReleaseStep s k).alarms = s.alarms := by
  unfold estopReleaseStep
  split
  · rfl
  · split
    · dsimp only
      cases hm : mapGet (toggleBelt k s).belts k with
      | none =>
        simp only [hm]
        rw [toggleBelt_alarms]
      | some belt2 =>
        simp only [hm]
        rw [toggleBelt_alarms]
    · rfl

theorem toggleEmergencyStop_alarms (s : SimState) :
    (toggleEmergencyStop s).alarms = s.alarms := by
  unfold toggleEmergencyStop
  dsimp only
  split
  · exact foldlPreserve (fun s' => s'.alarms = s.alarms)
      (estopEngageStep)
      (fun s' k hp => (estopEngageStep_alarms s' k).trans hp) _
      { s with emergencyStop := !s.emergencyStop } rfl
  · exact foldlPreserve (fun s' => s'.alarms = s.alarms)
      (estopReleaseStep)
      (fun s' k hp => (estopReleaseStep_alarms s' k).trans hp) _
      { s with emergencyStop := !s.emergencyStop } rfl

theorem saveProfileChanges_alarms (name : String) (e : ProfileEdit) (s : SimState) :
    (saveProfileChanges name e s).alarms = s.alarms := by
  unfold saveProfileChanges
  split <;> rfl

theorem initData_alarms (s : SimState) : (initData s).alarms = s.alarms := rfl

theorem tick_alarms_le {s : SimState} (dt : ℚ) (now : ℤ)
    (draws : String → SpawnDraws) (h : s.alarms.length ≤ 20) :
    (tick dt now draws s).alarms.length ≤ 20 := by
  unfold tick
  split
  · exact h
  · unfold updateItems
    refine foldlPreserve (fun s' => s'.alarms.length ≤ 20)
      (updateOneItem now dt)
      (fun s' k hp => updateOneItem_alarms_le now dt k hp) _ _ ?_
    show (spawnItems now draws s).alarms.length ≤ 20
    rw [spawnItems_alarms]
    exact h

theorem reachable_alarms_le {s : SimState} (h : Reachable s) :
    s.alarms.length ≤ 20 := by
  induction h with
  | init => decide
  | step op hr ih =>
    cases op with
    | tick dt now draws => exact tick_alarms_le dt now draws ih
    | toggleBelt beltId => rw [applyOp, toggleBelt_alarms]; exact ih
    | setBeltSpeed beltId speed => rw [applyOp, setBeltSpeed_alarms]; exact ih
    | setBeltProfile beltId name => rw [applyOp, setBeltProfile_alarms]; exact ih
    | toggleEmergencyStop => rw [applyOp, toggleEmergencyStop_alarms]; exact ih
    | togglePause => exact ih
    | toggleScenario n => cases n <;> exact ih
    | resetScenarios => exact ih
    | clearAlarms => exact Nat.zero_le 20
    | saveProfileChanges name e => rw [applyOp, saveProfileChanges_alarms]; exact ih
    | saveSensorSettings e => exact ih
    | resetConfiguration => rw [applyOp, resetConfiguration, initData_alarms]; exact ih

/-- **C6.** The alarm log never holds more than 20 entries in any
reachable state; `createAlarm` inserts the new alarm at the front
(newest first), and when the log already holds 20 entries the entry at
the back — the oldest — is the one evicted. -/
theorem alarm_log_bounded :
    (∀ s : SimState, Reachable s → s.alarms.length ≤ 20) ∧
    (∀ (now : ℤ) (item : Item) (qc : QCResult) (l : List Alarm),
      ∃ a : Alarm,
        (l.length < 20 → createAlarm now item qc l = a :: l) ∧
        (l.length = 20 → createAlarm now item qc l = a :: l.dropLast)) := by
  constructor
  · exact fun s h => reachable_alarms_le h
  · intro now item qc l
    refine ⟨{ id := "alarm_" ++ toString now, timestamp := now, beltId := item.beltId,
              itemId := item.id, type := qc.status, msgBeltId := item.beltId,
              msgReason := qc.reason,
              severity := if qc.bucket = "YELLOW_BIN" then "yellow"
                          else if qc.bucket = "GREEN_BIN" then "green" else "red" }, ?_, ?_⟩
    · intro hlen
      unfold createAlarm
      dsimp only
      rw [if_neg (by simp; omega)]
    · intro hlen
      unfold createAlarm
      dsimp only
      rw [if_pos (by simp [hlen])]
      rw [List.dropLast_eq_take]
      rw [List.take_cons]
      · congr 1
        rw [hlen]
      · omega

/-- Witness for C6: the startup state satisfies the bound, and a
concrete `createAlarm` on an empty log prepends the new alarm. -/
theorem alarm_log_bounded_witness :
    initState.alarms.length ≤ 20 ∧
    (∃ a : Alarm, createAlarm 0 demoItem ⟨"SOFT_FAIL", "YELLOW_BIN", QCReason.allOk⟩ []
        = a :: ([] : List Alarm)) := by
  constructor
  · exact alarm_log_bounded.1 initState Reachable.init
  · obtain ⟨a, h1, h2⟩ :=
      alarm_log_bounded.2 0 demoItem ⟨"SOFT_FAIL", "YELLOW_BIN", QCReason.allOk⟩ []
    exact ⟨a, h1 (by decide)⟩


/-! ## C8: behavior under the global emergency stop -/

/-- A fold whose step fixes `s` returns `s`. -/
theorem foldl_fixed {σ κ : Type} {f : σ → κ → σ} {s : σ}
    (hf : ∀ k, f s k = s) : ∀ l : List κ, l.foldl f s = s := by
  intro l
  induction l with
  | nil => rfl
  | cons k rest ih => rw [List.foldl_cons, hf k, ih]

/-- With the emergency stop engaged, the spawn pass over one belt does
nothing (the `!belt.enabled || this.emergencyStop` guard). -/
theorem spawnOnBelt_estop {s : SimState} (h : s.emergencyStop = true)
    (now : ℤ) (draws : String → SpawnDraws) (k : String) :
    spawnOnBelt now draws s k = s := by
  unfold spawnOnBelt
  cases hb : mapGet s.belts k with
  | none => rfl
  | some belt =>
    dsimp only
    rw [if_pos (by rw [h, Bool.or_true])]

/-- With the emergency stop engaged, `spawnItems` changes nothing. -/
theorem spawnItems_estop {s : SimState} (h : s.emergencyStop = true)
    (now : ℤ) (draws : String → SpawnDraws) :
    spawnItems now draws s = s :=
  foldl_fixed (fun k => spawnOnBelt_estop h now draws k) _

/-- `processItem` neither reads the `emergencyStop` flag nor changes
it, and it touches only the belts, statistics and alarms fields: its
run on a state with flag `b` equals, field by field, its run on the
same state with flag `b''`. -/
theorem processItem_es (now : ℤ) (item : Item) (a1 : Bool) (a2 : ℚ) (a3 b b' : Bool)
    (belts : List (String × Belt)) (items : List (String × Item))
    (sensors : List (String × Sensor)) (bins : List (String × Bin))
    (profiles : List (String × Profile)) (alarms : List Alarm)
    (stats : Statistics) (scen : Scenarios) (cfg : Config) :
    processItem now ⟨a1, a2, a3, b, belts, items, sensors, bins, profiles, alarms, stats, scen, cfg⟩ item =
      (⟨a1, a2, a3, b,
        (processItem now ⟨a1, a2, a3, b', belts, items, sensors, bins, profiles, alarms, stats, scen, cfg⟩ item).1.belts,
        items, sensors, bins, profiles,
        (processItem now ⟨a1, a2, a3, b', belts, items, sensors, bins, profiles, alarms, stats, scen, cfg⟩ item).1.alarms,
        (processItem now ⟨a1, a2, a3, b', belts, items, sensors, bins, profiles, alarms, stats, scen, cfg⟩ item).1.statistics,
        scen, cfg⟩,
       (processItem now ⟨a1, a2, a3, b', belts, items, sensors, bins, profiles, alarms, stats, scen, cfg⟩ item).2) := by
  unfold processItem
  dsimp only
  split
  · rfl
  · split
    · split <;> rfl
    · rfl

/-- `removeItem` likewise ignores the flag and touches only the belts
and items fields. -/
theorem removeItem_es (itemId : String) (a1 : Bool) (a2 : ℚ) (a3 b b' : Bool)
    (belts : List (String × Belt)) (items : List (String × Item))
    (sensors : List (String × Sensor)) (bins : List (String × Bin))
    (profiles : List (String × Profile)) (alarms : List Alarm)
    (stats : Statistics) (scen : Scenarios) (cfg : Config) :
    removeItem ⟨a1, a2, a3, b, belts, items, sensors, bins, profiles, alarms, stats, scen, cfg⟩ itemId =
      ⟨a1, a2, a3, b,
       (removeItem ⟨a1, a2, a3, b', belts, items, sensors, bins, profiles, alarms, stats, scen, cfg⟩ itemId).belts,
       (removeItem ⟨a1, a2, a3, b', belts, items, sensors, bins, profiles, alarms, stats, scen, cfg⟩ itemId).items,
       sensors, bins, profiles, alarms, stats, scen, cfg⟩ := by
  unfold removeItem
  dsimp only
  split
  · rfl
  · split <;> rfl

/-- The item `processItem` returns depends only on the profile
registry among the state fields. -/
theorem processItem_snd_congr (now : ℤ) (item : Item) (s t : SimState)
    (hp : s.profiles = t.profiles) :
    (processItem now s item).2 = (processItem now t item).2 := by
  unfold processItem
  rw [hp]
  dsimp only
  split
  · rfl
  · split
    · cases hm : mapGet s.belts item.beltId with
      | none =>
        cases hm2 : mapGet t.belts item.beltId with
        | none => rfl
        | some b2 => rfl
      | some b1 =>
        cases hm2 : mapGet t.belts item.beltId with
        | none => rfl
        | some b2 => rfl
    · rfl

/-- The belts, statistics and alarms `processItem` produces depend only
on the belts, profiles, statistics and alarms of the input state. -/
theorem processItem_engine_congr (now : ℤ) (item : Item) (s t : SimState)
    (hb : s.belts = t.belts) (hp : s.profiles = t.profiles)
    (hst : s.statistics = t.statistics) (hal : s.alarms = t.alarms) :
    (processItem now s item).1.belts = (processItem now t item).1.belts ∧
    (processItem now s item).1.statistics = (processItem now t item).1.statistics ∧
    (processItem now s item).1.alarms = (processItem now t item).1.alarms := by
  unfold processItem
  rw [hb, hp, hst, hal]
  dsimp only
  refine ⟨?_, ?_, ?_⟩ <;>
    (split
     · first | exact hb | exact hst | exact hal
     · split
       · split <;> (first | rfl | exact hb | exact hst | exact hal)
       · first | exact hb | exact hst | exact hal)

/-- `processItem` only ever rewrites the belts, statistics and alarms
fields of the state. -/
theorem processItem_shape (now : ℤ) (s : SimState) (item : Item) :
    processItem now s item =
      ({ s with belts := (processItem now s item).1.belts,
                statistics := (processItem now s item).1.statistics,
                alarms := (processItem now s item).1.alarms },
       (processItem now s item).2) := by
  have h : ∃ B St Al it, processItem now s item =
      ({ s with belts := B, statistics := St, alarms := Al }, it) := by
    unfold processItem
    dsimp only
    split
    · exact ⟨s.belts, s.statistics, s.alarms, _, rfl⟩
    · split
      · split
        · exact ⟨s.belts, s.statistics, s.alarms, _, rfl⟩
        · exact ⟨_, _, _, _, rfl⟩
      · exact ⟨s.belts, s.statistics, s.alarms, _, rfl⟩
  obtain ⟨B, St, Al, it, h⟩ := h
  rw [h]

/-- `removeItem` results depend only on the items and belts fields. -/
theorem removeItem_congr (itemId : String) (s t : SimState)
    (hi : s.items = t.items) (hb : s.belts = t.belts) :
    (removeItem s itemId).items = (removeItem t itemId).items ∧
    (removeItem s itemId).belts = (removeItem t itemId).belts := by
  unfold removeItem
  rw [hi, hb]
  dsimp only
  constructor <;> (repeat' split) <;> simp [hi, hb]

/-- `removeItem` only ever rewrites the belts and items fields. -/
theorem removeItem_shape (s : SimState) (itemId : String) :
    removeItem s itemId =
      { s with belts := (removeItem s itemId).belts,
               items := (removeItem s itemId).items } := by
  have h : ∃ B I, removeItem s itemId = { s with belts := B, items := I } := by
    unfold removeItem
    dsimp only
    split
    · exact ⟨s.belts, s.items, rfl⟩
    · split <;> exact ⟨_, _, rfl⟩
  obtain ⟨B, I, h⟩ := h
  rw [h]

/-- The per-item update step never reads the `emergencyStop` flag:
running it with the flag forced to `b` gives the same state with the
flag forced to `b`. -/
theorem updateOneItem_setES (now : ℤ) (dt : ℚ) (itemId : String) (s : SimState)
    (b : Bool) :
    updateOneItem now dt { s with emergencyStop := b } itemId =
      { updateOneItem now dt s itemId with emergencyStop := b } := by
  unfold updateOneItem
  dsimp only
  cases hm : mapGet s.items itemId with
  | none => simp only [hm]
  | some item0 =>
    simp only [hm]
    split
    · rfl
    · rw [processItem_es now _ s.isPaused s.simulationSpeed s.soundEnabled b
          s.emergencyStop]
      rw [processItem_es now _ s.isPaused s.simulationSpeed s.soundEnabled
          s.emergencyStop s.emergencyStop]
      unfold moveItemToBin
      dsimp only
      split
      · split <;>
          rw [removeItem_es itemId s.isPaused s.simulationSpeed s.soundEnabled b
                s.emergencyStop,
              removeItem_es itemId s.isPaused s.simulationSpeed s.soundEnabled
                s.emergencyStop s.emergencyStop]
      · split <;> rfl

theorem foldl_updateOneItem_setES (now : ℤ) (dt : ℚ) (l : List String) :
    ∀ (s : SimState) (b : Bool),
      l.foldl (updateOneItem now dt) { s with emergencyStop := b } =
        { l.foldl (updateOneItem now dt) s with emergencyStop := b } := by
  induction l with
  | nil => intro s b; rfl
  | cons k rest ih =>
    intro s b
    rw [List.foldl_cons, List.foldl_cons, updateOneItem_setES]
    exact ih (updateOneItem now dt s k) b

/-- `updateItems` never reads the `emergencyStop` flag: in-flight items
advance, record sensor readings and classify identically whether or not
the stop is engaged. -/
theorem updateItems_setES (now : ℤ) (dt : ℚ) (s : SimState) (b : Bool) :
    updateItems now dt { s with emergencyStop := b } =
      { updateItems now dt s with emergencyStop := b } := by
  unfold updateItems
  dsimp only
  exact foldl_updateOneItem_setES now dt _ s b

/-- **C8.** While the emergency stop is engaged no spawn attempt
creates an item on any lane (`spawnItems` leaves the state untouched),
while `updateItems` is entirely insensitive to the flag: items already
in transit are neither removed nor frozen by the stop — each tick still
advances their positions, records sensor-gate readings and classifies
them exactly as it would with the stop released. -/
theorem emergency_stop_behavior :
    (∀ (s : SimState) (now : ℤ) (draws : String → SpawnDraws),
      s.emergencyStop = true → spawnItems now draws s = s) ∧
    (∀ (s : SimState) (now : ℤ) (dt : ℚ) (b : Bool),
      updateItems now dt { s with emergencyStop := b } =
        { updateItems now dt s with emergencyStop := b }) :=
  ⟨fun _ now draws h => spawnItems_estop h now draws,
   fun s now dt b => updateItems_setES now dt s b⟩

/-- Witness for C8: a concrete emergency-stopped state spawns nothing. -/
theorem emergency_stop_behavior_witness :
    spawnItems 0 (fun _ => nominalDraws) { initState with emergencyStop := true } =
      { initState with emergencyStop := true } :=
  emergency_stop_behavior.1 { initState with emergencyStop := true } 0
    (fun _ => nominalDraws) rfl


/-! ## C4: spawn gating and the stale `lastSpawn` -/

/-- Every item in the map after `createBrushItem` was already there, or
belongs to the target belt and that belt was enabled. -/
theorem createBrushItem_items_mem (now : ℤ) (d : SpawnDraws) (bid : String)
    (profile : Profile) (s : SimState) {kv : String × Item}
    (h : kv ∈ (createBrushItem now d bid profile s).1.items) :
    kv ∈ s.items ∨
      (kv.2.beltId = bid ∧ ∃ belt, mapGet s.belts bid = some belt ∧ belt.enabled = true) := by
  unfold createBrushItem at h
  cases hb : mapGet s.belts bid with
  | none => rw [hb] at h; exact Or.inl h
  | some belt =>
    rw [hb] at h
    by_cases he : belt.enabled
    · simp only [he, Bool.not_true, Bool.false_eq_true, if_false] at h
      rcases mem_mapSet h with h' | h'
      · exact Or.inl h'
      · refine Or.inr ⟨?_, belt, rfl, he⟩
        rw [h']
        by_cases hw : s.scenarios.wrongProduct <;>
          by_cases hd : s.scenarios.softnessDrift <;>
          by_cases hs : s.scenarios.spikeHeight <;>
          simp [hw, hd, hs]
    · simp only [he, Bool.not_false, if_true] at h
      exact Or.inl h

/-- `createBrushItem` keeps every belt's enabled flag, counters and
`lastSpawn`. -/
theorem createBrushItem_belts_get (now : ℤ) (d : SpawnDraws) (bid : String)
    (profile : Profile) (s : SimState) {b : String} {belt : Belt}
    (h : mapGet s.belts b = some belt) :
    ∃ belt2, mapGet (createBrushItem now d bid profile s).1.belts b = some belt2 ∧
      belt2.enabled = belt.enabled ∧ belt2.counters = belt.counters ∧
      belt2.lastSpawn = belt.lastSpawn := by
  unfold createBrushItem
  cases hb : mapGet s.belts bid with
  | none => exact ⟨belt, h, rfl, rfl, rfl⟩
  | some belt0 =>
    by_cases he : belt0.enabled
    · simp only [he, Bool.not_true, Bool.false_eq_true, if_false]
      by_cases hk : b = bid
      · subst hk
        rw [h] at hb
        cases hb
        refine ⟨_, mapGet_mapSet_self h, he.symm, rfl, rfl⟩
      · exact ⟨belt, by rw [mapGet_mapSet_ne hk]; exact h, rfl, rfl, rfl⟩
    · simp only [he, Bool.not_false, if_true]
      exact ⟨belt, h, rfl, rfl, rfl⟩

/-- Every item present after one belt's spawn pass was already there,
or was created on that belt while it was enabled. -/
theorem spawnOnBelt_items_mem (now : ℤ) (draws : String → SpawnDraws)
    (s : SimState) (k : String) {kv : String × Item}
    (h : kv ∈ (spawnOnBelt now draws s k).items) :
    kv ∈ s.items ∨
      (kv.2.beltId = k ∧ ∃ belt, mapGet s.belts k = some belt ∧ belt.enabled = true) := by
  unfold spawnOnBelt at h
  cases hb : mapGet s.belts k with
  | none => rw [hb] at h; exact Or.inl h
  | some belt =>
    rw [hb] at h
    dsimp only at h
    by_cases hc : (!belt.enabled || s.emergencyStop) = true
    · rw [if_pos hc] at h
      exact Or.inl h
    · rw [if_neg hc] at h
      have hen : belt.enabled = true := by
        simp only [Bool.or_eq_true, Bool.not_eq_eq_eq_not, Bool.not_true, not_or] at hc
        rcases hc with ⟨hc1, _⟩
        simpa using hc1
      by_cases ht : ((now - belt.lastSpawn : ℤ) : ℚ) > 60 / belt.spawn_per_min * 1000
      · rw [if_pos ht] at h
        cases hp : mapGet s.profiles belt.profile with
        | none => rw [hp] at h; exact Or.inl h
        | some profile =>
          rw [hp] at h
          dsimp only at h
          have hmem :
              kv ∈ (createBrushItem now (draws k) k profile s).1.items → _ :=
            fun hx => createBrushItem_items_mem now (draws k) k profile s hx
          cases hb2 : mapGet (createBrushItem now (draws k) k profile s).1.belts k with
          | none =>
            rw [hb2] at h
            rcases hmem h with h' | ⟨h1, belt3, h2, h3⟩
            · exact Or.inl h'
            · exact Or.inr ⟨h1, belt3, hb.symm.trans h2, h3⟩
          | some belt2 =>
            rw [hb2] at h
            dsimp only at h
            rcases hmem h with h' | ⟨h1, belt3, h2, h3⟩
            · exact Or.inl h'
            · exact Or.inr ⟨h1, belt3, hb.symm.trans h2, h3⟩
      · rw [if_neg ht] at h
        exact Or.inl h

/-- One belt's spawn pass keeps every belt's enabled flag and counters. -/
theorem spawnOnBelt_belts_get (now : ℤ) (draws : String → SpawnDraws)
    (s : SimState) (k : String) {b : String} {belt : Belt}
    (h : mapGet s.belts b = some belt) :
    ∃ belt2, mapGet (spawnOnBelt now draws s k).belts b = some belt2 ∧
      belt2.enabled = belt.enabled ∧ belt2.counters = belt.counters := by
  unfold spawnOnBelt
  cases hbk : mapGet s.belts k with
  | none => exact ⟨belt, h, rfl, rfl⟩
  | some belt0 =>
    dsimp only
    by_cases hc : (!belt0.enabled || s.emergencyStop) = true
    · rw [if_pos hc]
      exact ⟨belt, h, rfl, rfl⟩
    · rw [if_neg hc]
      by_cases ht : ((now - belt0.lastSpawn : ℤ) : ℚ) > 60 / belt0.spawn_per_min * 1000
      · rw [if_pos ht]
        cases hp : mapGet s.profiles belt0.profile with
        | none => exact ⟨belt, h, rfl, rfl⟩
        | some profile =>
          dsimp only
          obtain ⟨beltb, hgb, hen, hctr, hls⟩ :=
            createBrushItem_belts_get now (draws k) k profile s h
          cases hb2 : mapGet (createBrushItem now (draws k) k profile s).1.belts k with
          | none => exact ⟨beltb, hgb, hen, hctr⟩
          | some belt' =>
            dsimp only
            by_cases hbk2 : b = k
            · subst hbk2
              rw [hgb] at hb2
              cases hb2
              exact ⟨_, mapGet_mapSet_self hgb, hen, hctr⟩
            · exact ⟨beltb, by rw [mapGet_mapSet_ne hbk2]; exact hgb, hen, hctr⟩
      · rw [if_neg ht]
        exact ⟨belt, h, rfl, rfl⟩

/-- No spawn pass ever creates an item on a disabled lane. -/
theorem spawnItems_disabled_lane {s : SimState} {b : String} {belt : Belt}
    (now : ℤ) (draws : String → SpawnDraws)
    (hb : mapGet s.belts b = some belt) (hd : belt.enabled = false) :
    ∀ kv ∈ (spawnItems now draws s).items, kv.2.beltId = b → kv ∈ s.items := by
  have main :
      (∃ belt', mapGet (spawnItems now draws s).belts b = some belt' ∧
        belt'.enabled = false) ∧
      (∀ kv ∈ (spawnItems now draws s).items, kv.2.beltId = b → kv ∈ s.items) := by
    unfold spawnItems
    refine foldlPreserve
      (fun scur =>
        (∃ belt', mapGet scur.belts b = some belt' ∧ belt'.enabled = false) ∧
        (∀ kv ∈ scur.items, kv.2.beltId = b → kv ∈ s.items))
      (spawnOnBelt now draws) ?_ _ s ⟨⟨belt, hb, hd⟩, fun kv hkv _ => hkv⟩
    rintro scur k ⟨⟨belt', hb', hd'⟩, hmem⟩
    constructor
    · obtain ⟨belt2, hb2, hen, _⟩ := spawnOnBelt_belts_get now draws scur k hb'
      exact ⟨belt2, hb2, hen.trans hd'⟩
    · intro kv hkv hbid
      rcases spawnOnBelt_items_mem now draws scur k hkv with h' | ⟨hbeltid, belt3, hb3, hen3⟩
      · exact hmem kv h' hbid
      · rw [hbid] at hbeltid
        rw [← hbeltid] at hb3
        rw [hb'] at hb3
        cases hb3
        rw [hen3] at hd'
        cases hd'
  exact main.2

/-- `toggleBelt` never touches any belt's `lastSpawn`, so re-enabling a
belt resumes the spawn cadence from the stale timestamp. -/
theorem toggleBelt_lastSpawn (bid : String) (s : SimState) {k : String} {belt : Belt}
    (h : mapGet s.belts k = some belt) :
    ∃ belt2, mapGet (toggleBelt bid s).belts k = some belt2 ∧
      belt2.lastSpawn = belt.lastSpawn := by
  unfold toggleBelt
  cases hbid : mapGet s.belts bid with
  | none => exact ⟨belt, h, rfl⟩
  | some tb =>
    dsimp only
    by_cases hk : k = bid
    · subst hk
      rw [h] at hbid
      cases hbid
      exact ⟨_, mapGet_mapSet_self h, rfl⟩
    · exact ⟨belt, by rw [mapGet_mapSet_ne hk]; exact h, rfl⟩

def staleDrawsFn : String → SpawnDraws := fun _ => nominalDraws

/-- Enable `B1`, spawn one item at `t = 10000`, disable the belt. -/
def staleOpsA : List Op :=
  [Op.toggleBelt "B1", Op.tick 0 10000 staleDrawsFn, Op.toggleBelt "B1"]

/-- ... then tick while disabled at `t = 20000` (no spawn). -/
def staleOpsB : List Op := staleOpsA ++ [Op.tick 0 20000 staleDrawsFn]

/-- ... then re-enable and tick only 16 ms later. -/
def staleOpsC : List Op :=
  staleOpsB ++ [Op.toggleBelt "B1", Op.tick 0 20016 staleDrawsFn]

def staleStateA : SimState := runOps staleOpsA initState

/-- Counterexample for C4 as stated: spawn at `t = 10000`, disable the
belt, tick at `t = 20000` (nothing spawns), re-enable, tick at
`t = 20016`: a new item appears just 16 ms after re-enabling, far less
than the full spawn interval `60000/18 ≈ 3333` ms the claim requires,
because `toggleBelt` left `lastSpawn = 10000` in place. -/
theorem spawn_resumes_immediately_cex :
    (runOps staleOpsB initState).items.length = 1 ∧
    (runOps staleOpsC initState).items.length = 2 ∧
    (20016 - 20000 : ℚ) < 60 / 18 * 1000 := by
  refine ⟨by decide, by decide, by norm_num⟩

/-- **C4 (amended).** No item is ever created by a spawn attempt while
its lane is disabled; but re-enabling a lane does not reset the spawn
cadence: `toggleBelt` leaves `lastSpawn` untouched, so the cadence
resumes from the stale `lastSpawn` value, and when more than one spawn
interval has already elapsed since the last spawn the first item
appears on the next spawn tick immediately rather than one full
interval after re-enabling. -/
theorem spawn_gating_stale_lastSpawn :
    (∀ (s : SimState) (now : ℤ) (draws : String → SpawnDraws) (b : String) (belt : Belt),
      mapGet s.belts b = some belt → belt.enabled = false →
      ∀ kv ∈ (spawnItems now draws s).items, kv.2.beltId = b → kv ∈ s.items) ∧
    (∀ (bid : String) (s : SimState) (k : String) (belt : Belt),
      mapGet s.belts k = some belt →
      ∃ belt2, mapGet (toggleBelt bid s).belts k = some belt2 ∧
        belt2.lastSpawn = belt.lastSpawn) :=
  ⟨fun _ now draws _ _ hb hd => spawnItems_disabled_lane now draws hb hd,
   fun bid _ _ _ h => toggleBelt_lastSpawn bid _ h⟩

/-- The `B1` record held by `staleStateA` (item spawned at `t = 10000`,
belt since disabled; note the stale `lastSpawn`). -/
def staleBelt : Belt :=
  { id := "B1", name := "Belt 1 (64mm)", speed_mps := 3/10, spawn_per_min := 18,
    profile := "Brush-64", position := ⟨-2, 0, -1⟩, enabled := false,
    wasRunning := false, lastSpawn := 10000, items := ["item_10000_x"],
    counters := ⟨0, 0, 0, 0⟩ }

/-- Witness for C4 (amended): on the concrete disabled-belt state the
spawn pass at `t = 20000` kept the items unchanged, and toggling `B1`
kept `lastSpawn = 10000`. -/
theorem spawn_gating_stale_lastSpawn_witness :
    ("item_10000_x", demoItem) ∈ staleStateA.items ∧
    (∃ belt2, mapGet (toggleBelt "B1" staleStateA).belts "B1" = some belt2 ∧
      belt2.lastSpawn = staleBelt.lastSpawn) :=
  ⟨spawn_gating_stale_lastSpawn.1 staleStateA 20000 staleDrawsFn "B1" staleBelt
      (by decide) (by decide) ("item_10000_x", demoItem) (by decide) (by decide),
   spawn_gating_stale_lastSpawn.2 "B1" staleStateA "B1" staleBelt (by decide)⟩


/-! ## C5: sensor-gate idempotence -/

/-- A demonstration run: enable `B1`, spawn one item at `t = 10000`,
then tick it down the belt in half-unit steps until it has crossed all
three sensor gates and been classified. -/
def demoOps : List Op :=
  [Op.toggleBelt "B1", Op.tick (5/3) 10000 staleDrawsFn] ++
  (List.range 10).map (fun i => Op.tick (5/3) (10001 + i) staleDrawsFn)

/-- The state after `demoOps`: one item, fully inspected, `OK`. -/
def demoState : SimState := runOps demoOps initState

/-- One sensor-gate check never duplicates a sensor id in the item's
reading list. -/
theorem checkOneSensor_nodup (now : ℤ) (sid : String) (sensor : Sensor)
    (item : Item)
    (h : (item.sensorReadings.map SensorReading.sensorId).Nodup) :
    (((checkOneSensor now sid sensor item).2.sensorReadings).map
      SensorReading.sensorId).Nodup := by
  unfold checkOneSensor
  dsimp only
  split
  · exact h
  · split
    · cases hf : item.sensorReadings.find? (fun r => r.sensorId == sid) with
      | some r => simp only [hf]; exact h
      | none =>
        simp only [hf]
        rw [List.map_append]
        rw [List.nodup_append]
        refine ⟨h, by simp, ?_⟩
        intro a ha hb
        simp only [List.map_cons, List.map_nil, List.mem_singleton] at hb
        subst hb
        rcases List.mem_map.1 ha with ⟨r, hr, hrid⟩
        have := List.find?_eq_none.1 hf r hr
        simp only [beq_iff_eq] at this
        exact this hrid
    · exact h

/-- A full pass over the sensor registry keeps the ids duplicate-free. -/
theorem checkSensorInteractions_nodup (now : ℤ) :
    ∀ (sensors : List (String × Sensor)) (item : Item),
      (item.sensorReadings.map SensorReading.sensorId).Nodup →
      (((checkSensorInteractions now sensors item).2.sensorReadings).map
        SensorReading.sensorId).Nodup := by
  intro sensors
  induction sensors with
  | nil => intro item h; exact h
  | cons kv rest ih =>
    intro item h
    exact ih _ (checkOneSensor_nodup now kv.1 kv.2 item h)

/-- `processItem` never touches the reading list of the item. -/
theorem processItem_snd_readings (now : ℤ) (s : SimState) (item : Item) :
    (processItem now s item).2.sensorReadings = item.sensorReadings := by
  unfold processItem
  dsimp only
  split
  · rfl
  · split
    · split <;> rfl
    · rfl

/-- `processItem` never touches the items map. -/
theorem processItem_fst_items (now : ℤ) (s : SimState) (item : Item) :
    (processItem now s item).1.items = s.items := by
  unfold processItem
  dsimp only
  split
  · rfl
  · split
    · split <;> rfl
    · rfl

theorem mem_mapDel {α : Type} {m : List (String × α)} {k : String}
    {kv : String × α} (h : kv ∈ mapDel m k) : kv ∈ m :=
  List.mem_of_mem_filter h

/-- Every item present after `removeItem` was present before. -/
theorem removeItem_items_mem {s : SimState} {itemId : String}
    {kv : String × Item} (h : kv ∈ (removeItem s itemId).items) : kv ∈ s.items := by
  unfold removeItem at h
  cases hm : mapGet s.items itemId with
  | none => rw [hm] at h; exact h
  | some item =>
    rw [hm] at h
    dsimp only at h
    cases hb : mapGet s.belts item.beltId with
    | none =>
      rw [hb] at h
      exact mem_mapDel h
    | some belt =>
      rw [hb] at h
      dsimp only at h
      exact mem_mapDel h

/-- Every item present after the per-item update step either was
already present, or is the stepped item itself, whose reading list is
the sensor pass over the old one (so id-uniqueness transfers). -/
theorem updateOneItem_items_nodup_transfer (now : ℤ) (dt : ℚ) (itemId : String)
    {s : SimState} {kv : String × Item}
    (h : kv ∈ (updateOneItem now dt s itemId).items) :
    kv ∈ s.items ∨
      ∃ item0, mapGet s.items itemId = some item0 ∧
        ((item0.sensorReadings.map SensorReading.sensorId).Nodup →
          ((kv.2.sensorReadings.map SensorReading.sensorId)).Nodup) := by
  unfold updateOneItem at h
  cases hm : mapGet s.items itemId with
  | none => rw [hm] at h; exact Or.inl h
  | some item0 =>
    rw [hm] at h
    dsimp only at h
    split at h
    · exact Or.inl h
    · unfold moveItemToBin at h
      rw [ite_self] at h
      rw [processItem_fst_items] at h
      split at h
      · have h2 := removeItem_items_mem h
        dsimp only at h2
        rcases mem_mapSet h2 with h3 | h3
        · rcases mem_mapSet h3 with h4 | h4
          · exact Or.inl h4
          · refine Or.inr ⟨item0, rfl, fun hn => ?_⟩
            rw [h4]
            exact checkSensorInteractions_nodup now s.sensors _ hn
        · refine Or.inr ⟨item0, rfl, fun hn => ?_⟩
          rw [h3]
          dsimp only
          rw [processItem_snd_readings]
          exact checkSensorInteractions_nodup now s.sensors _ hn
      · dsimp only at h
        rcases mem_mapSet h with h3 | h3
        · rcases mem_mapSet h3 with h4 | h4
          · exact Or.inl h4
          · refine Or.inr ⟨item0, rfl, fun hn => ?_⟩
            rw [h4]
            exact checkSensorInteractions_nodup now s.sensors _ hn
        · refine Or.inr ⟨item0, rfl, fun hn => ?_⟩
          rw [h3]
          dsimp only
          rw [processItem_snd_readings]
          exact checkSensorInteractions_nodup now s.sensors _ hn

/-- All items are id-duplicate-free in their reading lists. -/
def ItemsReadingsNodup (s : SimState) : Prop :=
  ∀ kv ∈ s.items, ((kv.2.sensorReadings).map SensorReading.sensorId).Nodup

theorem createBrushItem_items_nodup (now : ℤ) (d : SpawnDraws) (bid : String)
    (profile : Profile) (s : SimState) {kv : String × Item}
    (h : kv ∈ (createBrushItem now d bid profile s).1.items) :
    kv ∈ s.items ∨ ((kv.2.sensorReadings).map SensorReading.sensorId).Nodup := by
  unfold createBrushItem at h
  cases hb : mapGet s.belts bid with
  | none => rw [hb] at h; exact Or.inl h
  | some belt =>
    rw [hb] at h
    by_cases he : belt.enabled
    · simp only [he, Bool.not_true, Bool.false_eq_true, if_false] at h
      rcases mem_mapSet h with h' | h'
      · exact Or.inl h'
      · refine Or.inr ?_
        rw [h']
        by_cases hw : s.scenarios.wrongProduct <;>
          by_cases hd : s.scenarios.softnessDrift <;>
          by_cases hs : s.scenarios.spikeHeight <;>
          simp [hw, hd, hs]
    · simp only [he, Bool.not_false, if_true] at h
      exact Or.inl h

theorem spawnOnBelt_items_nodup (now : ℤ) (draws : String → SpawnDraws)
    (s : SimState) (k : String) {kv : String × Item}
    (h : kv ∈ (spawnOnBelt now draws s k).items) :
    kv ∈ s.items ∨ ((kv.2.sensorReadings).map SensorReading.sensorId).Nodup := by
  unfold spawnOnBelt at h
  cases hb : mapGet s.belts k with
  | none => rw [hb] at h; exact Or.inl h
  | some belt =>
    rw [hb] at h
    dsimp only at h
    by_cases hc : (!belt.enabled || s.emergencyStop) = true
    · rw [if_pos hc] at h
      exact Or.inl h
    · rw [if_neg hc] at h
      by_cases ht : ((now - belt.lastSpawn : ℤ) : ℚ) > 60 / belt.spawn_per_min * 1000
      · rw [if_pos ht] at h
        cases hp : mapGet s.profiles belt.profile with
        | none => rw [hp] at h; exact Or.inl h
        | some profile =>
          rw [hp] at h
          dsimp only at h
          cases hb2 : mapGet (createBrushItem now (draws k) k profile s).1.belts k with
          | none =>
            rw [hb2] at h
            exact createBrushItem_items_nodup now (draws k) k profile s h
          | some belt2 =>
            rw [hb2] at h
            dsimp only at h
            exact createBrushItem_items_nodup now (draws k) k profile s h
      · rw [if_neg ht] at h
        exact Or.inl h

theorem setBeltSpeed_items_readings (bid : String) (v : ℚ) (s : SimState)
    {kv : String × Item} (h : kv ∈ (setBeltSpeed bid v s).items) :
    ∃ kv0 ∈ s.items, kv.2.sensorReadings = kv0.2.sensorReadings := by
  unfold setBeltSpeed at h
  cases hb : mapGet s.belts bid with
  | none => rw [hb] at h; exact ⟨kv, h, rfl⟩
  | some belt =>
    rw [hb] at h
    dsimp only at h
    rcases List.mem_map.1 h with ⟨kv0, hkv0, he⟩
    refine ⟨kv0, hkv0, ?_⟩
    rw [← he]
    by_cases hid : kv0.2.beltId = bid <;> simp [hid]

theorem toggleBelt_items (bid : String) (s : SimState) :
    (toggleBelt bid s).items = s.items := by
  unfold toggleBelt
  split <;> rfl

theorem setBeltProfile_items (bid : String) (name : String) (s : SimState) :
    (setBeltProfile bid name s).items = s.items := by
  unfold setBeltProfile
  split <;> rfl

theorem estopEngageStep_items (s : SimState) (k : String) :
    (estopEngageStep s k).items = s.items := by
  unfold estopEngageStep
  split
  · rfl
  · split
    · rw [toggleBelt_items]
    · rfl

theorem estopReleaseStep_items (s : SimState) (k : String) :
    (estopReleaseStep s k).items = s.items := by
  unfold estopReleaseStep
  split
  · rfl
  · split
    · dsimp only
      cases hm : mapGet (toggleBelt k s).belts k with
      | none =>
        simp only [hm]
        rw [toggleBelt_items]
      | some belt2 =>
        simp only [hm]
        rw [toggleBelt_items]
    · rfl

theorem toggleEmergencyStop_items (s : SimState) :
    (toggleEmergencyStop s).items = s.items := by
  unfold toggleEmergencyStop
  dsimp only
  split
  · exact foldlPreserve (fun s' => s'.items = s.items)
      (estopEngageStep)
      (fun s' k hp => (estopEngageStep_items s' k).trans hp) _
      { s with emergencyStop := !s.emergencyStop } rfl
  · exact foldlPreserve (fun s' => s'.items = s.items)
      (estopReleaseStep)
      (fun s' k hp => (estopReleaseStep_items s' k).trans hp) _
      { s with emergencyStop := !s.emergencyStop } rfl

theorem saveProfileChanges_items (name : String) (e : ProfileEdit) (s : SimState) :
    (saveProfileChanges name e s).items = s.items := by
  unfold saveProfileChanges
  split <;> rfl

theorem reachable_items_readings_nodup {s : SimState} (h : Reachable s) :
    ItemsReadingsNodup s := by
  induction h with
  | init =>
    intro kv hkv
    have : initState.items = [] := rfl
    rw [this] at hkv
    cases hkv
  | step op hr ih =>
    cases op with
    | tick dt now draws =>
      show ItemsReadingsNodup (tick dt now draws _)
      unfold tick
      split
      · exact ih
      · unfold updateItems
        refine foldlPreserve (ItemsReadingsNodup)
          (updateOneItem now dt) ?_ _ _ ?_
        · intro s' k hp kv hkv
          rcases updateOneItem_items_nodup_transfer now dt k hkv with h' | ⟨item0, hm0, htr⟩
          · exact hp kv h'
          · exact htr (hp _ (mapGet_mem hm0))
        · unfold spawnItems
          refine foldlPreserve (ItemsReadingsNodup)
            (spawnOnBelt now draws) ?_ _ _ ih
          intro s' k hp kv hkv
          rcases spawnOnBelt_items_nodup now draws s' k hkv with h' | h'
          · exact hp kv h'
          · exact h'
    | toggleBelt bid =>
      show ItemsReadingsNodup (toggleBelt bid _)
      intro kv hkv
      rw [toggleBelt_items] at hkv
      exact ih kv hkv
    | setBeltSpeed bid v =>
      show ItemsReadingsNodup (setBeltSpeed bid v _)
      intro kv hkv
      obtain ⟨kv0, hkv0, he⟩ := setBeltSpeed_items_readings bid v _ hkv
      rw [he]
      exact ih kv0 hkv0
    | setBeltProfile bid name =>
      show ItemsReadingsNodup (setBeltProfile bid name _)
      intro kv hkv
      rw [setBeltProfile_items] at hkv
      exact ih kv hkv
    | toggleEmergencyStop =>
      show ItemsReadingsNodup (toggleEmergencyStop _)
      intro kv hkv
      rw [toggleEmergencyStop_items] at hkv
      exact ih kv hkv
    | togglePause => exact ih
    | toggleScenario n => cases n <;> exact ih
    | resetScenarios => exact ih
    | clearAlarms => exact ih
    | saveProfileChanges name e =>
      show ItemsReadingsNodup (saveProfileChanges name e _)
      intro kv hkv
      rw [saveProfileChanges_items] at hkv
      exact ih kv hkv
    | saveSensorSettings e => exact ih
    | resetConfiguration => exact ih

/-- **C5.** In every reachable state, every item's reading collection
holds at most one reading per sensor id, no matter how many consecutive
ticks the item spent inside a sensor's position window: the gate
crossing is idempotent. -/
theorem sensor_readings_at_most_once :
    ∀ s : SimState, Reachable s → ∀ kv ∈ s.items, ∀ sid : String,
      ((kv.2.sensorReadings).map SensorReading.sensorId).count sid ≤ 1 := by
  intro s hs kv hkv sid
  exact List.nodup_iff_count_le_one.1 (reachable_items_readings_nodup hs kv hkv) sid

/-- The fully-inspected item as it sits in `demoState`: it crossed all
three `B1` gates (several consecutive ticks inside each gate window)
and was classified `OK`. -/
def demoItemDone : Item :=
  { id := "item_10000_x", beltId := "B1", profile := "Brush-64",
    diameter_mm := 64, target_height_mm := 45, measured_height_mm := 45,
    softness_N := 11/4, status := "OK", bucket := some "OK_BIN",
    qcReason := some QCReason.allOk, position := ⟨1, 1/5, -1⟩,
    velocity := 3/10, timestampIn := 10000,
    sensorReadings :=
      [⟨"S_SOFT_1", 10008, 11/4, "softness"⟩,
       ⟨"S_HEIGHT_1", 10009, 45, "height"⟩,
       ⟨"S_SIZE_1", 10010, 64, "size"⟩] }

/-- Witness for C5: the fully-inspected demo item records exactly one
`S_SOFT_1` reading. -/
theorem sensor_readings_at_most_once_witness :
    (((demoItemDone.sensorReadings).map SensorReading.sensorId).count "S_SOFT_1") ≤ 1 :=
  sensor_readings_at_most_once demoState
    (reachable_runOps demoOps Reachable.init)
    ("item_10000_x", demoItemDone) (by decide) "S_SOFT_1"

/-! ## C7: monotone counters and the per-lane sum invariant -/

theorem mapGet_mapSet_self' {α : Type} (m : List (String × α)) (k : String)
    (v : α) : mapGet (mapSet m k v) k = some v := by
  by_cases hkey : mapHasKey m k = true
  · rw [mapSet_eq_replace hkey]
    induction m with
    | nil => simp [mapHasKey] at hkey
    | cons kv rest ih =>
      by_cases hk : kv.1 = k
      · simp [mapReplace, mapGet, hk]
      · simp only [mapReplace, if_neg hk, mapGet, hk, if_false]
        apply ih
        simp only [mapHasKey, List.any_cons] at hkey
        rcases Bool.or_eq_true_iff.1 hkey with h | h
        · exact absurd (by simpa using h) hk
        · exact h
  · rw [mapSet_eq_append (Bool.not_eq_true _ ▸ hkey : mapHasKey m k = false)]
    induction m with
    | nil => simp [mapGet]
    | cons kv rest ih =>
      simp only [mapHasKey, List.any_cons, Bool.or_eq_true_iff, not_or] at hkey
      have hk : ¬kv.1 = k := by
        intro h
        exact hkey.1 (by simp [h])
      simp only [List.cons_append, mapGet, if_neg hk]
      apply ih
      simp only [mapHasKey]
      intro h
      exact hkey.2 h

theorem mapGet_some_split {α : Type} {m : List (String × α)} {k : String}
    {v : α} (h : mapGet m k = some v) :
    ∃ l1 l2, m = l1 ++ (k, v) :: l2 ∧ k ∉ mapKeys l1 := by
  induction m with
  | nil => simp [mapGet] at h
  | cons kv rest ih =>
    by_cases hk : kv.1 = k
    · simp only [mapGet, if_pos hk, Option.some.injEq] at h
      refine ⟨[], rest, ?_, by simp [mapKeys]⟩
      have : kv = (k, v) := Prod.ext hk h
      rw [this]
      rfl
    · simp only [mapGet, if_neg hk] at h
      obtain ⟨l1, l2, he, hnk⟩ := ih h
      refine ⟨kv :: l1, l2, by rw [he]; rfl, ?_⟩
      simp only [mapKeys, List.map_cons, List.mem_cons, not_or]
      exact ⟨fun hh => hk hh.symm, by simpa [mapKeys] using hnk⟩

theorem mapSet_split {α : Type} {l1 l2 : List (String × α)} {k : String}
    {b : α} (b' : α) (h1 : k ∉ mapKeys l1) (h2 : k ∉ mapKeys l2) :
    mapSet (l1 ++ (k, b) :: l2) k b' = l1 ++ (k, b') :: l2 := by
  have hkey : mapHasKey (l1 ++ (k, b) :: l2) k = true := by
    unfold mapHasKey
    refine List.any_eq_true.2 ⟨(k, b), ?_, by simp⟩
    simp
  rw [mapSet_eq_replace hkey]
  have hrep : ∀ l : List (String × α), k ∉ mapKeys l → mapReplace l k b' = l := by
    intro l
    induction l with
    | nil => intro _; rfl
    | cons kv rest ih =>
      intro hnk
      simp only [mapKeys, List.map_cons, List.mem_cons, not_or] at hnk
      have hk : ¬kv.1 = k := fun hh => hnk.1 hh.symm
      simp only [mapReplace, if_neg hk]
      rw [ih (by simpa [mapKeys] using hnk.2)]
  have : ∀ l1 : List (String × α), k ∉ mapKeys l1 →
      mapReplace (l1 ++ (k, b) :: l2) k b' = l1 ++ (k, b') :: l2 := by
    intro l1
    induction l1 with
    | nil =>
      intro _
      simp only [List.nil_append, mapReplace, if_pos rfl]
      rw [hrep l2 h2]
      simp
    | cons kv rest ih =>
      intro hnk
      simp only [mapKeys, List.map_cons, List.mem_cons, not_or] at hnk
      have hk : ¬kv.1 = k := fun hh => hnk.1 hh.symm
      simp only [List.cons_append, mapReplace, if_neg hk, List.append_eq]
      rw [ih (by simpa [mapKeys] using hnk.2)]
  exact this l1 h1

/-- A `mapSet` on an existing key under duplicate-free keys keeps the
key sequence, and keeps the counters sequence whenever the replacement
keeps the counters. -/
theorem mapSet_keys_counters {m : List (String × Belt)} {k : String} {b : Belt}
    (b' : Belt) (hnd : (mapKeys m).Nodup) (hg : mapGet m k = some b) :
    mapKeys (mapSet m k b') = mapKeys m ∧
    (b'.counters = b.counters →
      (mapSet m k b').map (fun kv => kv.2.counters) =
        m.map (fun kv => kv.2.counters)) := by
  obtain ⟨l1, l2, he, hk1⟩ := mapGet_some_split hg
  have hk2 : k ∉ mapKeys l2 := by
    rw [he] at hnd
    unfold mapKeys at hnd ⊢
    rw [List.map_append, List.map_cons] at hnd
    rcases List.nodup_append.1 hnd with ⟨_, hnd2, _⟩
    exact (List.nodup_cons.1 hnd2).1
  rw [he, mapSet_split b' hk1 hk2]
  constructor
  · unfold mapKeys
    simp
  · intro hc
    simp [hc]

/-- The per-class counter sum after a `mapSet` exchanges the old
belt's contribution for the new one's. -/
theorem sum_mapSet {m : List (String × Belt)} {k : String} {b : Belt}
    (b' : Belt) (f : Belt → ℕ) (hnd : (mapKeys m).Nodup)
    (hg : mapGet m k = some b) :
    ((mapSet m k b').map (fun kv => f kv.2)).sum + f b =
      (m.map (fun kv => f kv.2)).sum + f b' := by
  obtain ⟨l1, l2, he, hk1⟩ := mapGet_some_split hg
  have hk2 : k ∉ mapKeys l2 := by
    rw [he] at hnd
    unfold mapKeys at hnd ⊢
    rw [List.map_append, List.map_cons] at hnd
    rcases List.nodup_append.1 hnd with ⟨_, hnd2, _⟩
    exact (List.nodup_cons.1 hnd2).1
  rw [he, mapSet_split b' hk1 hk2]
  simp [List.sum_append]
  omega

/-- Pointwise reading of a keys-and-counters-preserving change. -/
theorem mapGet_of_keys_counters {m m' : List (String × Belt)}
    (hk : mapKeys m' = mapKeys m)
    (hc : m'.map (fun kv => kv.2.counters) = m.map (fun kv => kv.2.counters)) :
    ∀ {k : String} {b : Belt}, mapGet m k = some b →
      ∃ b', mapGet m' k = some b' ∧ b'.counters = b.counters := by
  induction m generalizing m' with
  | nil => intro k b h; simp [mapGet] at h
  | cons kv rest ih =>
    intro k b h
    cases m' with
    | nil => simp [mapKeys] at hk
    | cons kv' rest' =>
      simp only [mapKeys, List.map_cons, List.cons.injEq] at hk hc
      by_cases hkk : kv.1 = k
      · simp only [mapGet, if_pos hkk, Option.some.injEq] at h
        refine ⟨kv'.2, ?_, by rw [hc.1, h]⟩
        rw [mapGet, if_pos (by rw [hk.1, hkk])]
      · simp only [mapGet, if_neg hkk] at h
        obtain ⟨b', hb', hcb⟩ := ih hk.2 hc.2 h
        refine ⟨b', ?_, hcb⟩
        rw [mapGet, if_neg (by rw [hk.1]; exact hkk)]
        exact hb'

/-- Observational equality for the statistics story: same key sequence,
same per-belt counters, same global statistics. -/
def BeltsObsEq (s t : SimState) : Prop :=
  mapKeys t.belts = mapKeys s.belts ∧
  t.belts.map (fun kv => kv.2.counters) = s.belts.map (fun kv => kv.2.counters) ∧
  t.statistics = s.statistics

theorem BeltsObsEq.refl_obs (s : SimState) : BeltsObsEq s s := ⟨rfl, rfl, rfl⟩

theorem BeltsObsEq.trans_obs {s t u : SimState} (h1 : BeltsObsEq s t)
    (h2 : BeltsObsEq t u) : BeltsObsEq s u :=
  ⟨h2.1.trans h1.1, h2.2.1.trans h1.2.1, h2.2.2.trans h1.2.2⟩

theorem BeltsObsEq.nodup {s t : SimState} (h : BeltsObsEq s t)
    (hnd : (mapKeys s.belts).Nodup) : (mapKeys t.belts).Nodup := h.1 ▸ hnd

theorem toggleBelt_obs (bid : String) (s : SimState)
    (hnd : (mapKeys s.belts).Nodup) : BeltsObsEq s (toggleBelt bid s) := by
  unfold toggleBelt
  cases hb : mapGet s.belts bid with
  | none => exact BeltsObsEq.refl_obs s
  | some belt =>
    dsimp only
    obtain ⟨hk, hc⟩ := mapSet_keys_counters { belt with enabled := !belt.enabled } hnd hb
    exact ⟨hk, hc rfl, rfl⟩

theorem setBeltSpeed_obs (bid : String) (v : ℚ) (s : SimState)
    (hnd : (mapKeys s.belts).Nodup) : BeltsObsEq s (setBeltSpeed bid v s) := by
  unfold setBeltSpeed
  cases hb : mapGet s.belts bid with
  | none => exact BeltsObsEq.refl_obs s
  | some belt =>
    dsimp only
    obtain ⟨hk, hc⟩ := mapSet_keys_counters { belt with speed_mps := v } hnd hb
    exact ⟨hk, hc rfl, rfl⟩

theorem setBeltProfile_obs (bid : String) (name : String) (s : SimState)
    (hnd : (mapKeys s.belts).Nodup) : BeltsObsEq s (setBeltProfile bid name s) := by
  unfold setBeltProfile
  cases hb : mapGet s.belts bid with
  | none => exact BeltsObsEq.refl_obs s
  | some belt =>
    dsimp only
    obtain ⟨hk, hc⟩ := mapSet_keys_counters { belt with profile := name } hnd hb
    exact ⟨hk, hc rfl, rfl⟩

theorem estopEngageStep_obs (s : SimState) (k : String)
    (hnd : (mapKeys s.belts).Nodup) : BeltsObsEq s (estopEngageStep s k) := by
  unfold estopEngageStep
  cases hb : mapGet s.belts k with
  | none => exact BeltsObsEq.refl_obs s
  | some belt =>
    dsimp only
    split
    · obtain ⟨hk, hc⟩ := mapSet_keys_counters { belt with wasRunning := true } hnd hb
      have h1 : BeltsObsEq s { s with belts := mapSet s.belts k { belt with wasRunning := true } } :=
        ⟨hk, hc rfl, rfl⟩
      exact h1.trans_obs (toggleBelt_obs k _ (h1.nodup hnd))
    · exact BeltsObsEq.refl_obs s

theorem estopReleaseStep_obs (s : SimState) (k : String)
    (hnd : (mapKeys s.belts).Nodup) : BeltsObsEq s (estopReleaseStep s k) := by
  unfold estopReleaseStep
  cases hb : mapGet s.belts k with
  | none => exact BeltsObsEq.refl_obs s
  | some belt =>
    dsimp only
    split
    · have h1 : BeltsObsEq s (toggleBelt k s) := toggleBelt_obs k s hnd
      cases hm : mapGet (toggleBelt k s).belts k with
      | none => exact h1
      | some belt2 =>
        dsimp only
        obtain ⟨hk, hc⟩ :=
          mapSet_keys_counters { belt2 with wasRunning := false } (h1.nodup hnd) hm
        exact h1.trans_obs ⟨hk, hc rfl, rfl⟩
    · exact BeltsObsEq.refl_obs s

theorem toggleEmergencyStop_obs (s : SimState)
    (hnd : (mapKeys s.belts).Nodup) : BeltsObsEq s (toggleEmergencyStop s) := by
  unfold toggleEmergencyStop
  dsimp only
  have hbase : BeltsObsEq s { s with emergencyStop := !s.emergencyStop } :=
    BeltsObsEq.refl_obs s
  split
  · exact foldlPreserve (fun t => BeltsObsEq s t)
      (estopEngageStep)
      (fun t k hp => hp.trans_obs (estopEngageStep_obs t k (hp.nodup hnd))) _
      { s with emergencyStop := !s.emergencyStop } hbase
  · exact foldlPreserve (fun t => BeltsObsEq s t)
      (estopReleaseStep)
      (fun t k hp => hp.trans_obs (estopReleaseStep_obs t k (hp.nodup hnd))) _
      { s with emergencyStop := !s.emergencyStop } hbase

theorem createBrushItem_obs (now : ℤ) (d : SpawnDraws) (bid : String)
    (profile : Profile) (s : SimState) (hnd : (mapKeys s.belts).Nodup) :
    BeltsObsEq s (createBrushItem now d bid profile s).1 := by
  unfold createBrushItem
  cases hb : mapGet s.belts bid with
  | none => exact BeltsObsEq.refl_obs s
  | some belt =>
    dsimp only
    split
    · exact BeltsObsEq.refl_obs s
    · exact ⟨(mapSet_keys_counters _ hnd hb).1,
        (mapSet_keys_counters _ hnd hb).2 rfl, rfl⟩

theorem spawnOnBelt_obs (now : ℤ) (draws : String → SpawnDraws) (s : SimState)
    (k : String) (hnd : (mapKeys s.belts).Nodup) :
    BeltsObsEq s (spawnOnBelt now draws s k) := by
  unfold spawnOnBelt
  cases hb : mapGet s.belts k with
  | none => exact BeltsObsEq.refl_obs s
  | some belt =>
    dsimp only
    split
    · exact BeltsObsEq.refl_obs s
    · split
      · cases hp : mapGet s.profiles belt.profile with
        | none => exact BeltsObsEq.refl_obs s
        | some profile =>
          dsimp only
          have h1 : BeltsObsEq s (createBrushItem now (draws k) k profile s).1 :=
            createBrushItem_obs now (draws k) k profile s hnd
          cases hb2 : mapGet (createBrushItem now (draws k) k profile s).1.belts k with
          | none => exact h1
          | some belt2 =>
            dsimp only
            exact h1.trans_obs
              ⟨(mapSet_keys_counters _ (h1.nodup hnd) hb2).1,
               (mapSet_keys_counters _ (h1.nodup hnd) hb2).2 rfl, rfl⟩
      · exact BeltsObsEq.refl_obs s

theorem removeItem_obs (s : SimState) (itemId : String)
    (hnd : (mapKeys s.belts).Nodup) : BeltsObsEq s (removeItem s itemId) := by
  unfold removeItem
  cases hm : mapGet s.items itemId with
  | none => exact BeltsObsEq.refl_obs s
  | some item =>
    dsimp only
    cases hb : mapGet s.belts item.beltId with
    | none => exact BeltsObsEq.refl_obs s
    | some belt =>
      dsimp only
      exact ⟨(mapSet_keys_counters _ hnd hb).1,
             (mapSet_keys_counters _ hnd hb).2 rfl, rfl⟩

theorem saveProfileChanges_obs (name : String) (e : ProfileEdit) (s : SimState) :
    BeltsObsEq s (saveProfileChanges name e s) := by
  unfold saveProfileChanges
  split
  · exact BeltsObsEq.refl_obs s
  · exact BeltsObsEq.refl_obs s

/-- Pointwise "counters never decreased". -/
def CountersLE (a b : Counters) : Prop :=
  a.ok ≤ b.ok ∧ a.red ≤ b.red ∧ a.green ≤ b.green ∧ a.yellow ≤ b.yellow

theorem CountersLE.refl_le (a : Counters) : CountersLE a a :=
  ⟨le_rfl, le_rfl, le_rfl, le_rfl⟩

theorem CountersLE.trans_le {a b c : Counters} (h1 : CountersLE a b)
    (h2 : CountersLE b c) : CountersLE a c :=
  ⟨h1.1.trans h2.1, h1.2.1.trans h2.2.1, h1.2.2.1.trans h2.2.2.1,
   h1.2.2.2.trans h2.2.2.2⟩

/-- Pointwise "global statistics never decreased". -/
def StatsLE (a b : Statistics) : Prop :=
  a.totalItems ≤ b.totalItems ∧ a.okCount ≤ b.okCount ∧
  a.redCount ≤ b.redCount ∧ a.greenCount ≤ b.greenCount ∧
  a.yellowCount ≤ b.yellowCount

theorem StatsLE.refl_stats (a : Statistics) : StatsLE a a :=
  ⟨le_rfl, le_rfl, le_rfl, le_rfl, le_rfl⟩

theorem StatsLE.trans_stats {a b c : Statistics} (h1 : StatsLE a b)
    (h2 : StatsLE b c) : StatsLE a c :=
  ⟨h1.1.trans h2.1, h1.2.1.trans h2.2.1, h1.2.2.1.trans h2.2.2.1,
   h1.2.2.2.1.trans h2.2.2.2.1, h1.2.2.2.2.trans h2.2.2.2.2⟩

/-- Monotone evolution of all counters, with the belts tracked
pointwise through the key map. -/
def CountersMono (s t : SimState) : Prop :=
  StatsLE s.statistics t.statistics ∧
  ∀ k b, mapGet s.belts k = some b →
    ∃ b', mapGet t.belts k = some b' ∧ CountersLE b.counters b'.counters

theorem CountersMono.refl_mono (s : SimState) : CountersMono s s :=
  ⟨StatsLE.refl_stats _, fun _ b h => ⟨b, h, CountersLE.refl_le _⟩⟩

theorem CountersMono.trans_mono {s t u : SimState} (h1 : CountersMono s t)
    (h2 : CountersMono t u) : CountersMono s u := by
  refine ⟨h1.1.trans_stats h2.1, fun k b hb => ?_⟩
  obtain ⟨b', hb', hc'⟩ := h1.2 k b hb
  obtain ⟨b'', hb'', hc''⟩ := h2.2 k b' hb'
  exact ⟨b'', hb'', hc'.trans_le hc''⟩

theorem CountersMono.obs_mono {s t : SimState} (h : BeltsObsEq s t) :
    CountersMono s t := by
  refine ⟨h.2.2 ▸ StatsLE.refl_stats _, fun k b hb => ?_⟩
  obtain ⟨b', hb', hc⟩ := mapGet_of_keys_counters h.1 h.2.1 hb
  exact ⟨b', hb', hc ▸ CountersLE.refl_le _⟩

/-- The global per-class counters agree with the per-lane sums. -/
def statsEqSum (s : SimState) : Prop :=
  s.statistics.okCount = (s.belts.map (fun kv => kv.2.counters.ok)).sum ∧
  s.statistics.redCount = (s.belts.map (fun kv => kv.2.counters.red)).sum ∧
  s.statistics.greenCount = (s.belts.map (fun kv => kv.2.counters.green)).sum ∧
  s.statistics.yellowCount = (s.belts.map (fun kv => kv.2.counters.yellow)).sum

theorem statsEqSum.obs_sum {s t : SimState} (he : statsEqSum s)
    (h : BeltsObsEq s t) : statsEqSum t := by
  have hsum : ∀ f : Counters → ℕ,
      (t.belts.map (fun kv => f kv.2.counters)).sum =
        (s.belts.map (fun kv => f kv.2.counters)).sum := by
    intro f
    have : t.belts.map (fun kv => f kv.2.counters) =
        s.belts.map (fun kv => f kv.2.counters) := by
      have h1 := congrArg (List.map f) h.2.1
      rw [List.map_map, List.map_map] at h1
      exact h1
    rw [this]
  refine ⟨?_, ?_, ?_, ?_⟩
  · rw [h.2.2, he.1]; exact (hsum Counters.ok).symm
  · rw [h.2.2, he.2.1]; exact (hsum Counters.red).symm
  · rw [h.2.2, he.2.2.1]; exact (hsum Counters.green).symm
  · rw [h.2.2, he.2.2.2]; exact (hsum Counters.yellow).symm

/-- The belts/statistics part of the counter invariant. -/
def CtrInv (s : SimState) : Prop :=
  (mapKeys s.belts).Nodup ∧ statsEqSum s

theorem CtrInv.obs_inv {s t : SimState} (h : CtrInv s) (ho : BeltsObsEq s t) :
    CtrInv t :=
  ⟨ho.nodup h.1, h.2.obs_sum ho⟩

/-- Bumping one belt's counters together with the matching global
counter preserves the equality invariant. -/
theorem ctrinv_bump (s : SimState) (bid : String) (belt : Belt) (c' : Counters)
    (st' : Statistics) (al : List Alarm) (h : CtrInv s)
    (hb : mapGet s.belts bid = some belt)
    (hok : st'.okCount + belt.counters.ok = s.statistics.okCount + c'.ok)
    (hred : st'.redCount + belt.counters.red = s.statistics.redCount + c'.red)
    (hgreen : st'.greenCount + belt.counters.green =
      s.statistics.greenCount + c'.green)
    (hyellow : st'.yellowCount + belt.counters.yellow =
      s.statistics.yellowCount + c'.yellow) :
    CtrInv { s with belts := mapSet s.belts bid { belt with counters := c' },
                    statistics := st', alarms := al } := by
  constructor
  · show (mapKeys (mapSet s.belts bid { belt with counters := c' })).Nodup
    rw [(mapSet_keys_counters _ h.1 hb).1]
    exact h.1
  · have h1 : ((mapSet s.belts bid { belt with counters := c' }).map
        (fun kv => kv.2.counters.ok)).sum + belt.counters.ok =
        (s.belts.map (fun kv => kv.2.counters.ok)).sum + c'.ok :=
      sum_mapSet _ (fun b => b.counters.ok) h.1 hb
    have h2 : ((mapSet s.belts bid { belt with counters := c' }).map
        (fun kv => kv.2.counters.red)).sum + belt.counters.red =
        (s.belts.map (fun kv => kv.2.counters.red)).sum + c'.red :=
      sum_mapSet _ (fun b => b.counters.red) h.1 hb
    have h3 : ((mapSet s.belts bid { belt with counters := c' }).map
        (fun kv => kv.2.counters.green)).sum + belt.counters.green =
        (s.belts.map (fun kv => kv.2.counters.green)).sum + c'.green :=
      sum_mapSet _ (fun b => b.counters.green) h.1 hb
    have h4 : ((mapSet s.belts bid { belt with counters := c' }).map
        (fun kv => kv.2.counters.yellow)).sum + belt.counters.yellow =
        (s.belts.map (fun kv => kv.2.counters.yellow)).sum + c'.yellow :=
      sum_mapSet _ (fun b => b.counters.yellow) h.1 hb
    obtain ⟨e1, e2, e3, e4⟩ := h.2
    unfold statsEqSum
    dsimp only
    exact ⟨by omega, by omega, by omega, by omega⟩

/-- `processItem` preserves the counter invariant: it bumps exactly one
belt counter and the matching global counter. -/
theorem processItem_ctrinv (now : ℤ) (s : SimState) (item : Item)
    (h : CtrInv s) : CtrInv (processItem now s item).1 := by
  unfold processItem
  dsimp only
  split
  · exact h
  · split
    · cases hb : mapGet s.belts item.beltId with
      | none => exact h
      | some belt =>
        dsimp only
        repeat' split
        all_goals
          refine ctrinv_bump s item.beltId belt _ _ _ h hb ?_ ?_ ?_ ?_ <;>
            (dsimp only; try omega)
    · exact h

/-- Bumping one belt's counters upward, together with a pointwise-larger
statistics record, is monotone. -/
theorem mono_bump (s : SimState) (bid : String) (belt : Belt) (c' : Counters)
    (st' : Statistics) (al : List Alarm)
    (hb : mapGet s.belts bid = some belt)
    (hc : CountersLE belt.counters c')
    (hst : StatsLE s.statistics st') :
    CountersMono s
      { s with belts := mapSet s.belts bid { belt with counters := c' },
               statistics := st', alarms := al } := by
  refine ⟨hst, fun k b hkb => ?_⟩
  by_cases hk : k = bid
  · subst hk
    refine ⟨{ belt with counters := c' }, mapGet_mapSet_self' _ _ _, ?_⟩
    obtain rfl : belt = b := Option.some_injective _ (hb.symm.trans hkb)
    exact hc
  · exact ⟨b, (mapGet_mapSet_ne hk _).trans hkb, CountersLE.refl_le _⟩

/-- `processItem` never decreases any counter. -/
theorem processItem_mono (now : ℤ) (s : SimState) (item : Item) :
    CountersMono s (processItem now s item).1 := by
  unfold processItem
  dsimp only
  split
  · exact CountersMono.refl_mono s
  · split
    · cases hb : mapGet s.belts item.beltId with
      | none => exact CountersMono.refl_mono s
      | some belt =>
        dsimp only
        repeat' split
        all_goals
          refine mono_bump s item.beltId belt _ _ _ hb
            ⟨?_, ?_, ?_, ?_⟩ ⟨?_, ?_, ?_, ?_, ?_⟩ <;>
            (dsimp only; try omega)
    · exact CountersMono.refl_mono s

/-- `processItem` preserves key uniqueness of the belt registry. -/
theorem processItem_nodup (now : ℤ) (s : SimState) (item : Item)
    (hnd : (mapKeys s.belts).Nodup) :
    (mapKeys (processItem now s item).1.belts).Nodup := by
  unfold processItem
  dsimp only
  split
  · exact hnd
  · split
    · cases hb : mapGet s.belts item.beltId with
      | none => exact hnd
      | some belt =>
        dsimp only
        repeat' split
        all_goals exact mapKeys_mapSet_nodup hnd
    · exact hnd

/-- A step that, assuming the belt keys are unique, never decreases any
counter, keeps the keys unique, and preserves the sum invariant. -/
def GoodStep (s t : SimState) : Prop :=
  (mapKeys s.belts).Nodup →
    CountersMono s t ∧ (mapKeys t.belts).Nodup ∧ (CtrInv s → CtrInv t)

theorem GoodStep.refl_step (s : SimState) : GoodStep s s :=
  fun hnd => ⟨CountersMono.refl_mono s, hnd, id⟩

theorem GoodStep.trans_step {s t u : SimState} (h1 : GoodStep s t)
    (h2 : GoodStep t u) : GoodStep s u := by
  intro hnd
  obtain ⟨m1, n1, c1⟩ := h1 hnd
  obtain ⟨m2, n2, c2⟩ := h2 n1
  exact ⟨m1.trans_mono m2, n2, fun hc => c2 (c1 hc)⟩

theorem GoodStep.obs_step {s t : SimState}
    (h : (mapKeys s.belts).Nodup → BeltsObsEq s t) : GoodStep s t :=
  fun hnd =>
    ⟨CountersMono.obs_mono (h hnd), (h hnd).nodup hnd, fun hc => hc.obs_inv (h hnd)⟩

theorem GoodStep.setItems (s : SimState) (it : List (String × Item)) :
    GoodStep s { s with items := it } :=
  GoodStep.obs_step (fun _ => ⟨rfl, rfl, rfl⟩)

theorem GoodStep.setItemsSensors (s : SimState) (sn : List (String × Sensor))
    (it : List (String × Item)) :
    GoodStep s { s with sensors := sn, items := it } :=
  GoodStep.obs_step (fun _ => ⟨rfl, rfl, rfl⟩)

theorem processItem_good (now : ℤ) (s : SimState) (item : Item) :
    GoodStep s (processItem now s item).1 :=
  fun hnd =>
    ⟨processItem_mono now s item, processItem_nodup now s item hnd,
     fun hc => processItem_ctrinv now s item hc⟩

theorem removeItem_good (s : SimState) (itemId : String) :
    GoodStep s (removeItem s itemId) :=
  GoodStep.obs_step (removeItem_obs s itemId)

theorem updateOneItem_good (now : ℤ) (dt : ℚ) (s : SimState) (itemId : String) :
    GoodStep s (updateOneItem now dt s itemId) := by
  unfold updateOneItem
  split
  · exact GoodStep.refl_step s
  · split
    · exact GoodStep.refl_step s
    · dsimp only
      simp only [moveItemToBin, ite_self]
      split
      · refine GoodStep.trans_step ?_ (removeItem_good _ _)
        refine GoodStep.trans_step ?_ (GoodStep.setItems _ _)
        refine GoodStep.trans_step ?_ (processItem_good now _ _)
        exact GoodStep.setItemsSensors s _ _
      · refine GoodStep.trans_step ?_ (GoodStep.setItems _ _)
        refine GoodStep.trans_step ?_ (processItem_good now _ _)
        exact GoodStep.setItemsSensors s _ _

theorem spawnOnBelt_good (now : ℤ) (draws : String → SpawnDraws)
    (s : SimState) (k : String) : GoodStep s (spawnOnBelt now draws s k) :=
  GoodStep.obs_step (spawnOnBelt_obs now draws s k)

theorem spawnItems_good (now : ℤ) (draws : String → SpawnDraws)
    (s : SimState) : GoodStep s (spawnItems now draws s) := by
  unfold spawnItems
  exact foldlPreserve (GoodStep s) (spawnOnBelt now draws)
    (fun t k h => h.trans_step (spawnOnBelt_good now draws t k)) _ s (GoodStep.refl_step s)

theorem updateItems_good (now : ℤ) (dt : ℚ) (s : SimState) :
    GoodStep s (updateItems now dt s) := by
  unfold updateItems
  exact foldlPreserve (GoodStep s) (updateOneItem now dt)
    (fun t k h => h.trans_step (updateOneItem_good now dt t k)) _ s (GoodStep.refl_step s)

theorem tick_good (dt : ℚ) (now : ℤ) (draws : String → SpawnDraws)
    (s : SimState) : GoodStep s (tick dt now draws s) := by
  unfold tick
  split
  · exact GoodStep.refl_step s
  · exact (spawnItems_good now draws s).trans_step (updateItems_good now dt _)

/-- `resetConfiguration` keeps the belt keys unique (it replaces the
three stock belts in place). -/
theorem resetConfiguration_nodup (s : SimState)
    (hnd : (mapKeys s.belts).Nodup) :
    (mapKeys (resetConfiguration s).belts).Nodup := by
  unfold resetConfiguration initData
  simp only [defaultBeltsData, List.foldl]
  exact mapKeys_mapSet_nodup (mapKeys_mapSet_nodup (mapKeys_mapSet_nodup hnd))

/-- Every operation other than `resetConfiguration` is a good step:
counters are monotone, keys stay unique, and the sum invariant is kept. -/
theorem applyOp_good (op : Op) (hop : op ≠ Op.resetConfiguration)
    (s : SimState) : GoodStep s (applyOp op s) := by
  cases op with
  | tick dt now draws => exact tick_good dt now draws s
  | toggleBelt bid => exact GoodStep.obs_step (toggleBelt_obs bid s)
  | setBeltSpeed bid v => exact GoodStep.obs_step (setBeltSpeed_obs bid v s)
  | setBeltProfile bid n => exact GoodStep.obs_step (setBeltProfile_obs bid n s)
  | toggleEmergencyStop => exact GoodStep.obs_step (toggleEmergencyStop_obs s)
  | togglePause => exact GoodStep.obs_step (fun _ => ⟨rfl, rfl, rfl⟩)
  | toggleScenario n =>
    cases n <;> exact GoodStep.obs_step (fun _ => ⟨rfl, rfl, rfl⟩)
  | resetScenarios => exact GoodStep.obs_step (fun _ => ⟨rfl, rfl, rfl⟩)
  | clearAlarms => exact GoodStep.obs_step (fun _ => ⟨rfl, rfl, rfl⟩)
  | saveProfileChanges name e =>
    exact GoodStep.obs_step (fun _ => saveProfileChanges_obs name e s)
  | saveSensorSettings e => exact GoodStep.obs_step (fun _ => ⟨rfl, rfl, rfl⟩)
  | resetConfiguration => exact absurd rfl hop

/-- Every operation, `resetConfiguration` included, keeps the belt keys
unique. -/
theorem applyOp_nodup (op : Op) (s : SimState)
    (hnd : (mapKeys s.belts).Nodup) :
    (mapKeys (applyOp op s).belts).Nodup := by
  cases op with
  | resetConfiguration => exact resetConfiguration_nodup s hnd
  | tick dt now draws =>
    exact ((applyOp_good (.tick dt now draws) (by intro h; exact Op.noConfusion h) s) hnd).2.1
  | toggleBelt bid =>
    exact ((applyOp_good (.toggleBelt bid) (by intro h; exact Op.noConfusion h) s) hnd).2.1
  | setBeltSpeed bid v =>
    exact ((applyOp_good (.setBeltSpeed bid v) (by intro h; exact Op.noConfusion h) s) hnd).2.1
  | setBeltProfile bid n =>
    exact ((applyOp_good (.setBeltProfile bid n) (by intro h; exact Op.noConfusion h) s) hnd).2.1
  | toggleEmergencyStop =>
    exact ((applyOp_good .toggleEmergencyStop (by intro h; exact Op.noConfusion h) s) hnd).2.1
  | togglePause =>
    exact ((applyOp_good .togglePause (by intro h; exact Op.noConfusion h) s) hnd).2.1
  | toggleScenario n =>
    exact ((applyOp_good (.toggleScenario n) (by intro h; exact Op.noConfusion h) s) hnd).2.1
  | resetScenarios =>
    exact ((applyOp_good .resetScenarios (by intro h; exact Op.noConfusion h) s) hnd).2.1
  | clearAlarms =>
    exact ((applyOp_good .clearAlarms (by intro h; exact Op.noConfusion h) s) hnd).2.1
  | saveProfileChanges name e =>
    exact ((applyOp_good (.saveProfileChanges name e) (by intro h; exact Op.noConfusion h) s) hnd).2.1
  | saveSensorSettings e =>
    exact ((applyOp_good (.saveSensorSettings e) (by intro h; exact Op.noConfusion h) s) hnd).2.1

/-- Belt keys are unique in every reachable state. -/
theorem reachable_nodup {s : SimState} (h : Reachable s) :
    (mapKeys s.belts).Nodup := by
  induction h with
  | init => decide
  | step op _ ih => exact applyOp_nodup op _ ih

/-- States reachable without ever pressing the configuration-reset
button. -/
inductive NRReachable : SimState → Prop where
  | init : NRReachable initState
  | step {s : SimState} (op : Op) (hop : op ≠ Op.resetConfiguration) :
      NRReachable s → NRReachable (applyOp op s)

/-- The counter invariant holds in every reset-free reachable state. -/
theorem nrreachable_ctrinv {s : SimState} (h : NRReachable s) : CtrInv s := by
  induction h with
  | init => exact ⟨by decide, by decide, by decide, by decide, by decide⟩
  | step op hop _ ih => exact ((applyOp_good op hop _) ih.1).2.2 ih

/-- `resetConfiguration` leaves the global statistics untouched while
re-creating the three stock belts with zeroed counters. -/
theorem resetConfiguration_effect (s : SimState) :
    (resetConfiguration s).statistics = s.statistics ∧
    ∀ k, k ∈ ["B1", "B2", "B3"] → ∃ b,
      mapGet (resetConfiguration s).belts k = some b ∧
      b.counters = ⟨0, 0, 0, 0⟩ := by
  constructor
  · rfl
  · intro k hk
    unfold resetConfiguration initData
    simp only [defaultBeltsData, List.foldl]
    simp only [List.mem_cons, List.not_mem_nil, or_false] at hk
    rcases hk with rfl | rfl | rfl
    · exact ⟨_, (mapGet_mapSet_ne (by decide) _).trans
        ((mapGet_mapSet_ne (by decide) _).trans (mapGet_mapSet_self' _ _ _)), rfl⟩
    · exact ⟨_, (mapGet_mapSet_ne (by decide) _).trans
        (mapGet_mapSet_self' _ _ _), rfl⟩
    · exact ⟨_, mapGet_mapSet_self' _ _ _, rfl⟩

/-- Counterexample to C7 as stated: `demoState` is reachable and has one
`OK` item counted on belt `B1` and in the global statistics; pressing the
configuration-reset button zeroes the per-lane counter (a decrease) while
the global `okCount` stays at `1`, so the global counters no longer equal
the per-lane sums. -/
theorem counters_reset_cex :
    Reachable demoState ∧
    (mapGet demoState.belts "B1").map (fun b => b.counters.ok) = some 1 ∧
    demoState.statistics.okCount = 1 ∧
    (mapGet (resetConfiguration demoState).belts "B1").map
      (fun b => b.counters.ok) = some 0 ∧
    (resetConfiguration demoState).statistics.okCount = 1 ∧
    ¬ statsEqSum (resetConfiguration demoState) := by
  refine ⟨reachable_runOps demoOps Reachable.init, by decide, by decide,
    by decide, by decide, fun h => absurd h.1 (by decide)⟩

/-- **C7** (amended).  (i) Every operation except `resetConfiguration`
leaves the global statistics and every per-lane counter no smaller than
before; (ii) in every state reachable without `resetConfiguration`, each
global per-class counter equals the sum of that class's per-lane
counters; (iii) `resetConfiguration` breaks both: it zeroes the per-lane
counters of the three stock belts while leaving the global statistics
record untouched. -/
theorem statistics_counters_monotone_sum :
    (∀ s op, Reachable s → op ≠ Op.resetConfiguration →
      CountersMono s (applyOp op s)) ∧
    (∀ s, NRReachable s → statsEqSum s) ∧
    (∀ s, (resetConfiguration s).statistics = s.statistics ∧
      ∀ k, k ∈ ["B1", "B2", "B3"] → ∃ b,
        mapGet (resetConfiguration s).belts k = some b ∧
        b.counters = ⟨0, 0, 0, 0⟩) :=
  ⟨fun s op hr hop => ((applyOp_good op hop s) (reachable_nodup hr)).1,
   fun _ h => (nrreachable_ctrinv h).2,
   resetConfiguration_effect⟩

theorem statistics_counters_monotone_sum_witness :
    CountersMono initState (applyOp (Op.toggleBelt "B1") initState) ∧
    statsEqSum initState ∧
    (resetConfiguration initState).statistics = initState.statistics :=
  ⟨statistics_counters_monotone_sum.1 initState (Op.toggleBelt "B1")
     Reachable.init (by intro h; exact Op.noConfusion h),
   statistics_counters_monotone_sum.2.1 initState NRReachable.init,
   (statistics_counters_monotone_sum.2.2 initState).1⟩

theorem mapHasKey_eq_false_of_not_mem {α : Type} {m : List (String × α)}
    {k : String} (h : k ∉ mapKeys m) : mapHasKey m k = false := by
  unfold mapHasKey
  simp only [List.any_eq_false]
  intro kv hkv hEq
  exact h (eq_of_beq hEq ▸ List.mem_map_of_mem Prod.fst hkv)

theorem map_setEntry_of_hasKey_false {α : Type} {m : List (String × α)}
    {k : String} (v : α) (h : mapHasKey m k = false) :
    m.map (fun kv => if kv.1 = k then (k, v) else kv) = m := by
  induction m with
  | nil => rfl
  | cons kv rest ih =>
    unfold mapHasKey at h
    simp only [List.any_cons, Bool.or_eq_false_iff] at h
    have h1 : kv.1 ≠ k := fun he => by simp [he] at h
    have h2 : mapHasKey rest k = false := h.2
    simp only [List.map_cons, if_neg h1, ih h2]

theorem mapSet_cons_ne {α : Type} {k k' : String} (hne : k ≠ k')
    (v w : α) (t : List (String × α)) :
    mapSet ((k, v) :: t) k' w = (k, v) :: mapSet t k' w := by
  have hbeq : (k == k') = false := beq_eq_false_iff_ne.mpr hne
  unfold mapSet mapHasKey
  by_cases ht : (t.any fun kv => kv.1 == k') = true
  · simp [List.any_cons, hbeq, ht, hne]
  · simp [List.any_cons, hbeq, ht, hne]

theorem mapSet_cons_self {α : Type} (k : String) (v w : α)
    {t : List (String × α)} (ht : mapHasKey t k = false) :
    mapSet ((k, v) :: t) k w = (k, w) :: t := by
  unfold mapSet mapHasKey
  simp only [List.any_cons, beq_self_eq_true, Bool.true_or, if_true,
    List.map_cons, if_pos rfl]
  rw [map_setEntry_of_hasKey_false w ht]

theorem mapSet_get_self {α : Type} {m : List (String × α)} {k : String}
    {b : α} (hnd : (mapKeys m).Nodup) (h : mapGet m k = some b) :
    mapSet m k b = m := by
  induction m with
  | nil => simp [mapGet] at h
  | cons kv rest ih =>
    obtain ⟨k0, v0⟩ := kv
    simp only [mapKeys, List.map_cons, List.nodup_cons] at hnd
    unfold mapGet at h
    by_cases hk : k0 = k
    · subst hk
      rw [if_pos rfl] at h
      obtain rfl : v0 = b := Option.some_injective _ h
      exact mapSet_cons_self k0 v0 v0 (mapHasKey_eq_false_of_not_mem hnd.1)
    · rw [if_neg hk] at h
      rw [mapSet_cons_ne hk v0 b rest, ih hnd.2 h]

theorem mapSet_mapSet_same {α : Type} {m : List (String × α)} {k : String}
    (hnd : (mapKeys m).Nodup) (v w : α) :
    mapSet (mapSet m k v) k w = mapSet m k w := by
  induction m with
  | nil => simp [mapSet, mapHasKey]
  | cons kv t ih =>
    obtain ⟨k0, v0⟩ := kv
    simp only [mapKeys, List.map_cons, List.nodup_cons] at hnd
    by_cases hk : k0 = k
    · subst hk
      have ht : mapHasKey t k0 = false := mapHasKey_eq_false_of_not_mem hnd.1
      rw [mapSet_cons_self k0 v0 v ht, mapSet_cons_self k0 v w ht,
        mapSet_cons_self k0 v0 w ht]
    · rw [mapSet_cons_ne hk v0 v t, mapSet_cons_ne hk v0 w (mapSet t k v),
        mapSet_cons_ne hk v0 w t, ih hnd.2]

/-! ## C9: emergency-stop engage/release as per-belt maps -/

/-- Apply `f` to the entry stored under `k`, if any. -/
def overKey {α : Type} (f : α → α) (m : List (String × α)) (k : String) :
    List (String × α) :=
  match mapGet m k with
  | none => m
  | some b => mapSet m k (f b)

theorem overKey_keys {α : Type} (f : α → α) (m : List (String × α))
    (k : String) : mapKeys (overKey f m k) = mapKeys m := by
  unfold overKey
  cases hb : mapGet m k with
  | none => rfl
  | some b =>
    dsimp only
    rw [mapSet_eq_replace (mapHasKey_of_get hb)]
    exact mapKeys_replace

theorem foldl_overKey_cons {α : Type} (f : α → α) :
    ∀ (kt : List String) (k : String) (v : α) (t : List (String × α)),
      k ∉ kt →
      kt.foldl (overKey f) ((k, v) :: t) = (k, v) :: kt.foldl (overKey f) t := by
  intro kt
  induction kt with
  | nil => intro k v t _; rfl
  | cons k' kt' ih =>
    intro k v t hk
    have hne : k ≠ k' := fun he => hk (he ▸ List.mem_cons_self k' kt')
    have htl : k ∉ kt' := fun hmem => hk (List.mem_cons_of_mem k' hmem)
    rw [List.foldl_cons, List.foldl_cons]
    have hstep : overKey f ((k, v) :: t) k' = (k, v) :: overKey f t k' := by
      have hg : mapGet ((k, v) :: t) k' = mapGet t k' := by
        simp [mapGet, hne]
      unfold overKey
      rw [hg]
      cases hb : mapGet t k' with
      | none => rfl
      | some b =>
        dsimp only
        exact mapSet_cons_ne hne v (f b) t
    rw [hstep, ih k v (overKey f t k') htl]

theorem foldl_overKey_map {α : Type} (f : α → α) :
    ∀ (m : List (String × α)), (mapKeys m).Nodup →
      (mapKeys m).foldl (overKey f) m = m.map (fun kv => (kv.1, f kv.2)) := by
  intro m
  induction m with
  | nil => intro _; rfl
  | cons kv t ih =>
    intro hnd
    obtain ⟨k, v⟩ := kv
    simp only [mapKeys, List.map_cons, List.nodup_cons] at hnd
    show (k :: mapKeys t).foldl (overKey f) ((k, v) :: t) = _
    rw [List.foldl_cons]
    have hstep : overKey f ((k, v) :: t) k = (k, f v) :: t := by
      have hg : mapGet ((k, v) :: t) k = some v := by simp [mapGet]
      unfold overKey
      rw [hg]
      dsimp only
      exact mapSet_cons_self k v (f v) (mapHasKey_eq_false_of_not_mem hnd.1)
    rw [hstep, foldl_overKey_cons f (mapKeys t) k (f v) t hnd.1, ih hnd.2]
    rfl

/-- The per-belt effect of the engage branch of `toggleEmergencyStop`:
an enabled belt is switched off with `wasRunning` recorded. -/
def engageBelt (b : Belt) : Belt :=
  if b.enabled then { b with enabled := false, wasRunning := true } else b

/-- The per-belt effect of the release branch of `toggleEmergencyStop`:
a recorded belt is toggled back and the record cleared. -/
def releaseBelt (b : Belt) : Belt :=
  if b.wasRunning then { b with enabled := !b.enabled, wasRunning := false }
  else b

theorem estopEngageStep_char (u : SimState) (k : String)
    (hnd : (mapKeys u.belts).Nodup) :
    estopEngageStep u k = { u with belts := overKey engageBelt u.belts k } := by
  unfold estopEngageStep overKey
  cases hb : mapGet u.belts k with
  | none => rfl
  | some b =>
    dsimp only
    unfold engageBelt
    by_cases he : b.enabled
    · rw [if_pos he, if_pos he]
      unfold toggleBelt
      rw [mapGet_mapSet_self' u.belts k { b with wasRunning := true }]
      dsimp only
      rw [mapSet_mapSet_same hnd, he]
      rfl
    · rw [if_neg he, if_neg he]
      rw [mapSet_get_self hnd hb]

theorem estopReleaseStep_char (u : SimState) (k : String)
    (hnd : (mapKeys u.belts).Nodup) :
    estopReleaseStep u k = { u with belts := overKey releaseBelt u.belts k } := by
  unfold estopReleaseStep overKey
  cases hb : mapGet u.belts k with
  | none => rfl
  | some b =>
    dsimp only
    unfold releaseBelt
    by_cases hw : b.wasRunning
    · rw [if_pos hw, if_pos hw]
      unfold toggleBelt
      rw [hb]
      dsimp only
      rw [mapGet_mapSet_self' u.belts k { b with enabled := !b.enabled }]
      dsimp only
      rw [mapSet_mapSet_same hnd]
    · rw [if_neg hw, if_neg hw]
      rw [mapSet_get_self hnd hb]

theorem foldl_estopEngage (ks : List String) :
    ∀ (u : SimState), (mapKeys u.belts).Nodup →
      ks.foldl estopEngageStep u =
        { u with belts := ks.foldl (overKey engageBelt) u.belts } := by
  induction ks with
  | nil => intro u _; rfl
  | cons k kt ih =>
    intro u hnd
    rw [List.foldl_cons, List.foldl_cons, estopEngageStep_char u k hnd]
    exact ih _ ((overKey_keys engageBelt u.belts k).symm ▸ hnd)

theorem foldl_estopRelease (ks : List String) :
    ∀ (u : SimState), (mapKeys u.belts).Nodup →
      ks.foldl estopReleaseStep u =
        { u with belts := ks.foldl (overKey releaseBelt) u.belts } := by
  induction ks with
  | nil => intro u _; rfl
  | cons k kt ih =>
    intro u hnd
    rw [List.foldl_cons, List.foldl_cons, estopReleaseStep_char u k hnd]
    exact ih _ ((overKey_keys releaseBelt u.belts k).symm ▸ hnd)

theorem toggleEmergencyStop_engage (s : SimState)
    (hnd : (mapKeys s.belts).Nodup) (hE : s.emergencyStop = false) :
    toggleEmergencyStop s =
      { s with emergencyStop := true,
               belts := s.belts.map (fun kv => (kv.1, engageBelt kv.2)) } := by
  unfold toggleEmergencyStop
  dsimp only
  rw [hE]
  simp only [Bool.not_false, if_true]
  rw [foldl_estopEngage (mapKeys s.belts) { s with emergencyStop := true } hnd]
  rw [foldl_overKey_map engageBelt s.belts hnd]

theorem toggleEmergencyStop_release (s : SimState)
    (hnd : (mapKeys s.belts).Nodup) (hE : s.emergencyStop = true) :
    toggleEmergencyStop s =
      { s with emergencyStop := false,
               belts := s.belts.map (fun kv => (kv.1, releaseBelt kv.2)) } := by
  unfold toggleEmergencyStop
  dsimp only
  rw [hE]
  simp only [Bool.not_true, if_false]
  rw [foldl_estopRelease (mapKeys s.belts) { s with emergencyStop := false } hnd]
  rw [foldl_overKey_map releaseBelt s.belts hnd]
  simp only [Bool.false_eq_true, if_false]

theorem mapKeys_map_snd {α : Type} (f : α → α) (m : List (String × α)) :
    mapKeys (m.map (fun kv => (kv.1, f kv.2))) = mapKeys m := by
  unfold mapKeys
  rw [List.map_map]
  rfl

theorem releaseBelt_engageBelt (b : Belt) (hw : b.wasRunning = false) :
    releaseBelt (engageBelt b) = b := by
  unfold engageBelt releaseBelt
  obtain ⟨id, name, sp, spm, prof, pos, en, wr, ls, its, cnt⟩ := b
  dsimp only at hw ⊢
  subst hw
  cases en <;> rfl

theorem estop_roundtrip_aux (s : SimState)
    (hnd : (mapKeys s.belts).Nodup) (hE : s.emergencyStop = false)
    (hwr : ∀ kv ∈ s.belts, kv.2.wasRunning = false) :
    toggleEmergencyStop (toggleEmergencyStop s) = s := by
  rw [toggleEmergencyStop_engage s hnd hE]
  rw [toggleEmergencyStop_release _
    ((mapKeys_map_snd engageBelt s.belts).symm ▸ hnd) rfl]
  have hmap : (s.belts.map (fun kv => (kv.1, engageBelt kv.2))).map
      (fun kv => (kv.1, releaseBelt kv.2)) = s.belts := by
    rw [List.map_map]
    have hpt : ∀ kv ∈ s.belts,
        ((fun kv : String × Belt => (kv.1, releaseBelt kv.2)) ∘
          (fun kv : String × Belt => (kv.1, engageBelt kv.2))) kv = kv := by
      intro kv hkv
      show (kv.1, releaseBelt (engageBelt kv.2)) = kv
      rw [releaseBelt_engageBelt kv.2 (hwr kv hkv)]
    rw [List.map_congr_left hpt]
    exact List.map_id' s.belts
  rw [hmap]
  rw [← hE]

/-- **C9.**  Engaging the emergency stop flips the flag and maps every
belt through `engageBelt` (an enabled belt is disabled with `wasRunning`
recorded); releasing maps every belt through `releaseBelt` (a recorded
belt is toggled back on and the record cleared); and from a state with
the stop disengaged and no stale `wasRunning` record, engaging and then
releasing restores the entire state, in particular every belt's
`enabled` flag. -/
theorem estop_engage_release_roundtrip :
    ∀ s : SimState, (mapKeys s.belts).Nodup →
      (s.emergencyStop = false →
        toggleEmergencyStop s =
          { s with emergencyStop := true,
                   belts := s.belts.map (fun kv => (kv.1, engageBelt kv.2)) }) ∧
      (s.emergencyStop = true →
        toggleEmergencyStop s =
          { s with emergencyStop := false,
                   belts := s.belts.map (fun kv => (kv.1, releaseBelt kv.2)) }) ∧
      (s.emergencyStop = false →
        (∀ kv ∈ s.belts, kv.2.wasRunning = false) →
        toggleEmergencyStop (toggleEmergencyStop s) = s) :=
  fun s hnd =>
    ⟨toggleEmergencyStop_engage s hnd,
     toggleEmergencyStop_release s hnd,
     estop_roundtrip_aux s hnd⟩

theorem estop_engage_release_roundtrip_witness :
    toggleEmergencyStop (toggleEmergencyStop demoEnabledState) =
      demoEnabledState :=
  (estop_engage_release_roundtrip demoEnabledState (by decide)).2.2
    (by decide) (by decide)
